import Mathlib

/-!
Verification development for the podcast-mirror repository
(src/download_feeds.py and src/feedcli.py).

The Python sources are shallowly embedded below.  Conventions:

* sqlite tables become Lean lists of row structures; SELECT ... fetchone
  becomes List.find? (first matching row), UPDATE becomes List.map over all
  rows matching the WHERE clause, INSERT becomes appending to the list, and
  AUTOINCREMENT primary keys become explicit counters.  The date_added
  timestamp columns (CURRENT_TIMESTAMP) are not modelled: no claim and no
  branch of the source depends on their values.
* the values produced by xmltodict.parse are embedded as the XVal type
  (strings, dicts and lists), together with the Python indexing, iteration
  and .get semantics the source applies to them.  Exceptions become an
  explicit PyErr value carried in the results.
* the filesystem is a list of (path, size-in-bytes) pairs.  Directory
  creation (mkdir with exist_ok) is not tracked: no branch of the source
  reads directory existence.  Paths produced by the program are joined with
  a slash exactly as Path(...).as_posix() renders them; stored paths are
  re-read with Path(item_file) and re-rendered with as_posix(), which is
  the identity on the normalised strings the program itself stores.
* the network is a pair of partial maps: feed reference to parsed feed
  document (covering both the file:// branch and the requests.get branch of
  get_feed_xml followed by xmltodict.parse; an absent entry is the fetch
  raising), and enclosure URL to HTTP response (an absent entry is
  requests.get raising a connection error).
-/

namespace PodcastMirror

/-- Python exception kinds raised by the embedded code paths. -/
inductive PyErr where
  | keyError (k : String)
  | typeError
  | valueError
  | attributeError
  | fetchError
  | connectionError
  | zeroDivisionError
deriving DecidableEq, Repr

mutual
/-- Values produced by xmltodict.parse: element text becomes a string,
an element with attributes or children becomes a dict, and repeated
sibling elements become a list.  (Empty elements, which xmltodict maps to
None, do not occur in any input considered here.) -/
inductive XVal where
  | str (s : String)
  | dict (entries : XFields)
  | list (elems : XElems)

/-- The key-value entries of a dict XVal, in insertion (document) order. -/
inductive XFields where
  | fnil
  | fcons (k : String) (v : XVal) (rest : XFields)

/-- The elements of a list XVal, in document order. -/
inductive XElems where
  | enil
  | econs (v : XVal) (rest : XElems)
end

/-- Dict lookup: first entry with the given key. -/
def XFields.lookupKey : XFields → String → Option XVal
  | .fnil, _ => none
  | .fcons k v rest, key => if k == key then some v else rest.lookupKey key

def XFields.keys : XFields → List String
  | .fnil => []
  | .fcons k _ rest => k :: rest.keys

def XElems.toList : XElems → List XVal
  | .enil => []
  | .econs v rest => v :: rest.toList

/-- Convenience builder for dict values. -/
def xdict (l : List (String × XVal)) : XVal :=
  .dict (l.foldr (fun e acc => XFields.fcons e.1 e.2 acc) .fnil)

/-- Convenience builder for list values. -/
def xlist (l : List XVal) : XVal :=
  .list (l.foldr (fun v acc => XElems.econs v acc) .enil)

/-- Python subscription v[k] with a string key: dict lookup (KeyError when
the key is absent), TypeError on a string or a list. -/
def pyIndex (v : XVal) (k : String) : Except PyErr XVal :=
  match v with
  | .dict es =>
    match es.lookupKey k with
    | some w => .ok w
    | none => .error (.keyError k)
  | _ => .error .typeError

/-- Python iteration: a list yields its elements, a dict yields its keys
(as strings), a string yields its characters as one-character strings. -/
def pyIter (v : XVal) : Except PyErr (List XVal) :=
  match v with
  | .list es => .ok es.toList
  | .dict es => .ok (es.keys.map XVal.str)
  | .str s => .ok (s.data.map (fun c => XVal.str (String.mk [c])))

/-- Python v.get(k): dict lookup returning None when absent;
AttributeError on non-dicts. -/
def pyGet (v : XVal) (k : String) : Except PyErr (Option XVal) :=
  match v with
  | .dict es => .ok (es.lookupKey k)
  | _ => .error .attributeError

/-- Coercion of an XVal to the string the source code expects at the string
operation and sqlite parameter positions.  All leaf values xmltodict
produces are strings; a dict or list value at such a position makes the
source raise (TypeError at a string operation, sqlite InterfaceError at a
parameter), collapsed here into typeError. -/
def asStr : XVal → Except PyErr String
  | .str s => .ok s
  | _ => .error .typeError

/-- Python str.isalnum restricted to ASCII (the only characters exercised
by the claims; Python additionally accepts non-ASCII alphanumerics). -/
def pyIsAlnum (c : Char) : Bool := c.isAlpha || c.isDigit

/-- safe_filename from both source files (also inlined at line 232 of
download_feeds.py): keep alphanumerics, space, dot, underscore and hyphen,
then strip trailing whitespace. -/
def safe_filename (fname : String) : String :=
  String.mk
    (((fname.data.filter
        (fun c => pyIsAlnum c || c == ' ' || c == '.' || c == '_' || c == '-')).reverse.dropWhile
          Char.isWhitespace).reverse)

/-- Split a character list on a separator character (used to model the
fixed-format strptime pattern). -/
def splitChar (c : Char) : List Char → List (List Char)
  | [] => [[]]
  | x :: xs =>
    let r := splitChar c xs
    if x == c then [] :: r
    else
      match r with
      | [] => [[x]]
      | h :: t => (x :: h) :: t

/-- Digits-only conversion of a character list to a number. -/
def charsToNat? (cs : List Char) : Option Nat :=
  if cs ≠ [] ∧ cs.all Char.isDigit then
    some (cs.foldl (fun n c => n * 10 + (c.toNat - 48)) 0)
  else none

def lowerStr (s : String) : String := String.mk (s.data.map Char.toLower)

/-- Parsed datetime (naive, as strptime returns without tz info). -/
structure PDate where
  year : Nat
  month : Nat
  day : Nat
  hour : Nat
  minute : Nat
  second : Nat
deriving DecidableEq, Repr

def weekdayAbbrs : List String :=
  ["mon", "tue", "wed", "thu", "fri", "sat", "sun"]

def monthAbbrs : List String :=
  ["jan", "feb", "mar", "apr", "may", "jun", "jul", "aug", "sep", "oct", "nov", "dec"]

/-- datetime.strptime(s, "%a, %d %b %Y %H:%M:%S %Z") from line 236 of
download_feeds.py, returning none where strptime raises ValueError.
Names match case-insensitively as in strptime; for %Z only GMT and UTC are
modelled (strptime additionally accepts the local timezone names, which no
claim exercises). -/
def parsePubDate (s : String) : Option PDate :=
  match (splitChar ' ' s.data).map String.mk with
  | [wd, d, mon, y, hms, tz] =>
    match wd.data.reverse with
    | ',' :: wdrev =>
      if weekdayAbbrs.contains (lowerStr (String.mk wdrev.reverse)) &&
          monthAbbrs.contains (lowerStr mon) &&
          (lowerStr tz == "gmt" || lowerStr tz == "utc") &&
          decide (d.length ≤ 2) && decide (y.length ≤ 4) then
        match charsToNat? d.data, (monthAbbrs.findIdx? (fun m => m == lowerStr mon)),
            charsToNat? y.data, (splitChar ':' hms.data).map String.mk with
        | some dd, some mi, some yy, [h, mnu, sec] =>
          if decide (h.length ≤ 2) && decide (mnu.length ≤ 2) && decide (sec.length ≤ 2) then
            match charsToNat? h.data, charsToNat? mnu.data, charsToNat? sec.data with
            | some hh, some mm, some ss =>
              if 1 ≤ dd && dd ≤ 31 && hh ≤ 23 && mm ≤ 59 && ss ≤ 61 then
                some ⟨yy, mi + 1, dd, hh, mm, ss⟩
              else none
            | _, _, _ => none
          else none
        | _, _, _, _ => none
      else none
    | _ => none
  | _ => none

def pad2 (n : Nat) : String := if n < 10 then "0" ++ toString n else toString n

def pad4 (n : Nat) : String :=
  if n < 10 then "000" ++ toString n
  else if n < 100 then "00" ++ toString n
  else if n < 1000 then "0" ++ toString n
  else toString n

/-- pub_date.strftime("%Y-%m-%d") from line 265 of download_feeds.py. -/
def dateYmd (d : PDate) : String :=
  pad4 d.year ++ "-" ++ pad2 d.month ++ "-" ++ pad2 d.day

/-- pub_date.isoformat() from line 251 of download_feeds.py. -/
def isoformat (d : PDate) : String :=
  dateYmd d ++ "T" ++ pad2 d.hour ++ ":" ++ pad2 d.minute ++ ":" ++ pad2 d.second

/-- Python int(str) on the content-length header value: optional sign and
decimal digits, surrounding whitespace stripped (digit-group underscores,
which no claim exercises, are not modelled).  none where int() raises
ValueError. -/
def pyInt? (s : String) : Option Int :=
  let t := (s.data.dropWhile Char.isWhitespace).reverse.dropWhile Char.isWhitespace |>.reverse
  match t with
  | '-' :: rest => (charsToNat? rest).map (fun n => -(n : Int))
  | '+' :: rest => (charsToNat? rest).map (fun n => (n : Int))
  | _ => (charsToNat? t).map (fun n => (n : Int))

/-- needle matches at the head of hay. -/
def takeMatches : List Char → List Char → Bool
  | [], _ => true
  | _ :: _, [] => false
  | a :: ns, b :: hs => a == b && takeMatches ns hs

/-- needle occurs as a contiguous segment of hay (substring containment,
modelling LIKE with a percent-wrapped pattern). -/
def hasSegment (needle : List Char) : List Char → Bool
  | [] => needle.isEmpty
  | b :: hs => takeMatches needle (b :: hs) || hasSegment needle hs

def jsonEscape (s : String) : String :=
  String.mk (s.data.foldr
    (fun c acc => if c == '"' || c == '\\' then '\\' :: c :: acc else c :: acc) [])

def jsonQuote (s : String) : String := "\"" ++ jsonEscape s ++ "\""

def joinComma : List String → String
  | [] => ""
  | [s] => s
  | s :: rest => s ++ ", " ++ joinComma rest

mutual
/-- json.dumps(channel_dict) from line 129 of download_feeds.py (basic
backslash and quote escaping; the exact escaped text of control characters
is not relied on by any claim). -/
def xvalToJson : XVal → String
  | .str s => jsonQuote s
  | .dict es => "\x7b" ++ xfieldsToJson es ++ "\x7d"
  | .list es => "[" ++ xelemsToJson es ++ "]"

def xfieldsToJson : XFields → String
  | .fnil => ""
  | .fcons k v .fnil => jsonQuote k ++ ": " ++ xvalToJson v
  | .fcons k v rest => jsonQuote k ++ ": " ++ xvalToJson v ++ ", " ++ xfieldsToJson rest

def xelemsToJson : XElems → String
  | .enil => ""
  | .econs v .enil => xvalToJson v
  | .econs v rest => xvalToJson v ++ ", " ++ xelemsToJson rest
end

/-- One row of the feed table (download_feeds.py lines 46-53). -/
structure FeedRow where
  feed_id : Nat
  feed_url : String
  title : String
deriving DecidableEq, Repr

/-- One row of the raw_feed table (download_feeds.py lines 56-64). -/
structure SnapshotRow where
  feed_id : Nat
  data : String
deriving DecidableEq, Repr

/-- One row of the feed_item table (download_feeds.py lines 67-84).
enclosure_length and itunes_season hold the strings the source actually
passes (the values extracted from the XML document). -/
structure ItemRow where
  feed_item_id : Nat
  feed_id : Nat
  guid : String
  title : String
  description : String
  pub_date : String
  itunes_duration : Option String
  enclosure_url : String
  enclosure_length : String
  enclosure_type : String
  itunes_season : Option String
  download_path : Option String
deriving DecidableEq, Repr

/-- The sqlite database state: the three tables plus the AUTOINCREMENT
counters for the two primary keys the source reads back. -/
structure DB where
  feeds : List FeedRow
  snapshots : List SnapshotRow
  items : List ItemRow
  nextFeedId : Nat
  nextItemId : Nat
deriving DecidableEq, Repr

/-- A freshly created database (sqlite AUTOINCREMENT starts at 1). -/
def emptyDB : DB := ⟨[], [], [], 1, 1⟩

def feedUrlMatch (url : String) (f : FeedRow) : Bool := f.feed_url == url

def itemMatch (fid : Nat) (g : String) (r : ItemRow) : Bool :=
  r.feed_id == fid && r.guid == g

def idMatch (id : Nat) (r : ItemRow) : Bool := r.feed_item_id == id

/-- upsert_feed from download_feeds.py lines 100-132: look up the feed by
URL; insert a fresh row (returning the new id) when absent, otherwise
update the title of every row with that URL; then always append one
raw_feed snapshot row. -/
def upsert_feed (db : DB) (feed_url title data : String) : Nat × DB :=
  let step : Nat × DB :=
    match db.feeds.find? (feedUrlMatch feed_url) with
    | none =>
      let fid := db.nextFeedId
      (fid, { db with
              feeds := db.feeds ++ [⟨fid, feed_url, title⟩],
              nextFeedId := fid + 1 })
    | some f =>
      (f.feed_id, { db with
                    feeds := db.feeds.map
                      (fun g => if feedUrlMatch feed_url g then { g with title := title } else g) })
  (step.1, { step.2 with snapshots := step.2.snapshots ++ [⟨step.1, data⟩] })

/-- The SET clause of the UPDATE at lines 185-212: every metadata column
is overwritten; download_path (and feed_id, date_added) are not listed. -/
def setMeta (guid title description pub_date : String) (itunes_duration : Option String)
    (item_url item_length item_type : String) (itunes_season : Option String)
    (s : ItemRow) : ItemRow :=
  { s with
    guid := guid
    title := title
    description := description
    pub_date := pub_date
    itunes_duration := itunes_duration
    enclosure_url := item_url
    enclosure_length := item_length
    enclosure_type := item_type
    itunes_season := itunes_season }

/-- upsert_feed_item from download_feeds.py lines 135-214: look up by
(feed_id, guid); insert a fresh row (download_path NULL) when absent,
otherwise update every metadata column of the rows with the found
feed_item_id, leaving download_path untouched. -/
def upsert_feed_item (db : DB) (fid : Nat) (guid title description pub_date : String)
    (itunes_duration : Option String) (item_url item_length item_type : String)
    (itunes_season : Option String) : Nat × DB :=
  match db.items.find? (itemMatch fid guid) with
  | none =>
    let id := db.nextItemId
    (id, { db with
           items := db.items ++
             [⟨id, fid, guid, title, description, pub_date, itunes_duration,
               item_url, item_length, item_type, itunes_season, none⟩],
           nextItemId := id + 1 })
  | some r =>
    let id := r.feed_item_id
    (id, { db with
           items := db.items.map
             (fun s => if idMatch id s then
               setMeta guid title description pub_date itunes_duration
                 item_url item_length item_type itunes_season s
               else s) })

/-- The row of the feed_item table holding a given (feed_id, guid) episode
(first matching row, as the SELECT at line 148 reads it). -/
def findItemRow (db : DB) (fid : Nat) (g : String) : Option ItemRow :=
  db.items.find? (itemMatch fid g)

/-- The recorded download path of an episode, collapsing a missing row and
a NULL download_path into none. -/
def pathState (db : DB) (fid : Nat) (g : String) : Option String :=
  (findItemRow db fid g).bind (fun r => r.download_path)

/-- Database well-formedness maintained by sqlite itself: primary keys are
unique and below the AUTOINCREMENT counter. -/
def wfDB (db : DB) : Prop :=
  (db.items.map (fun r => r.feed_item_id)).Nodup ∧
    ∀ r ∈ db.items, r.feed_item_id < db.nextItemId

instance (db : DB) : Decidable (wfDB db) := by
  unfold wfDB; infer_instance

/-- Filesystem state: regular files with their byte sizes. -/
abbrev FS := List (String × Nat)

def fileExists (fs : FS) (p : String) : Bool := fs.any (fun e => e.1 == p)

/-- Opening a path with mode wb and writing n bytes: truncate an existing
file or create a fresh one. -/
def writeFile (fs : FS) (p : String) (n : Nat) : FS :=
  if fs.any (fun e => e.1 == p) then
    fs.map (fun e => if e.1 == p then (p, n) else e)
  else fs ++ [(p, n)]

/-- Path(a, b).as_posix(): join with a slash; Path("") is the current
directory, so a leading empty component disappears.  (Components produced
by the program contain no slashes, so no further normalisation applies.) -/
def pathJoin (a b : String) : String := if a == "" then b else a ++ "/" ++ b

/-- The response to requests.get(item_url, stream=True): the status code
(which the source never inspects), the content-length header when present,
and the number of body bytes the stream delivers. -/
structure HttpResponse where
  status : Nat
  contentLength : Option String
  bodyBytes : Nat
deriving DecidableEq, Repr

/-- The external world: feed reference to parsed feed document (none =
get_feed_xml raises), and enclosure URL to HTTP response (none =
requests.get raises a connection error). -/
structure Env where
  feeds : String → Option XVal
  enclosures : String → Option HttpResponse

/-- The state after (part of) a feed-processing run: dirty (uncommitted)
database state, filesystem, the list of downloader invocations performed
(episode guid and destination path of each requests.get at line 272), and
the exception propagating out of process_one_feed, if any. -/
structure RunResult where
  db : DB
  fs : FS
  downloads : List (String × String)
  err : Option PyErr
deriving DecidableEq, Repr

/-- The item fields the loop body of process_one_feed (lines 230-257)
extracts from one item value, in source order. -/
structure ExtractedItem where
  title : String
  url : String
  pubDate : PDate
  season : Option String
  guid : String
  description : String
  duration : Option String
  enclosure_length : String
  enclosure_type : String
deriving DecidableEq, Repr

/-- Reading and parsing the pubDate of one item (line 236): subscript,
string expectation, then strptime (ValueError when the text does not match
the fixed format). -/
def getPubDateE (item : XVal) : Except PyErr PDate := do
  let pv ← pyIndex item "pubDate"
  let ps ← asStr pv
  match parsePubDate ps with
  | some d => .ok d
  | none => .error .valueError

/-- The field extractions of the loop body (lines 231-256), in the order
the source evaluates them.  A failure in any extraction is the exception
aborting the feed. -/
def extractItem (item : XVal) : Except PyErr ExtractedItem := do
  let title ← asStr (← pyIndex item "title")
  let encl ← pyIndex item "enclosure"
  let url ← asStr (← pyIndex encl "@url")
  let pubDate ← getPubDateE item
  let seasonV ← pyGet item "itunes:season"
  let season ← match seasonV with
    | none => pure (none : Option String)
    | some v => do pure (some (← asStr v))
  let guid ← asStr (← pyIndex (← pyIndex item "guid") "#text")
  let description ← asStr (← pyIndex item "description")
  let durationV ← pyGet item "itunes:duration"
  let duration ← match durationV with
    | none => pure (none : Option String)
    | some v => do pure (some (← asStr v))
  let enclosure_length ← asStr (← pyIndex encl "@length")
  let enclosure_type ← asStr (← pyIndex encl "@type")
  .ok ⟨title, url, pubDate, season, guid, description, duration, enclosure_length, enclosure_type⟩

/-- The canonical download path built at lines 239-243 and 265-266:
[Season n inside the feed directory when the item declares a season]
then "date title.mp3" with the sanitised item title. -/
def canonicalFile (feedDir : String) (ex : ExtractedItem) : String :=
  let item_dir := match ex.season with
    | some s => pathJoin feedDir ("Season " ++ s)
    | none => feedDir
  pathJoin item_dir (dateYmd ex.pubDate ++ " " ++ safe_filename ex.title ++ ".mp3")

/-- The SET clause of the UPDATE at lines 285-288: set download_path for
the rows with the given feed_item_id. -/
def setPathRow (tid : Nat) (file : String) (r : ItemRow) : ItemRow :=
  if idMatch tid r then { r with download_path := some file } else r

/-- The file path the loop body resolves for an episode (lines 259-268),
as a function of the database state before the upsert of the item: the
stored download_path when the episode has one recorded, the canonical path
otherwise. -/
def resolvedFile (db : DB) (fid : Nat) (feedDir : String) (ex : ExtractedItem) : String :=
  (pathState db fid ex.guid).getD (canonicalFile feedDir ex)

/-- The download block, lines 270-288 of download_feeds.py: skip when a
file exists at the resolved path; otherwise stream the enclosure
(requests.get; int(content-length); chunked write; progress logs that
divide by the expected byte count) and on completion set download_path for
the rows with this feed_item_id.  invoked records whether the requests.get
at line 272 ran.  The source never inspects the HTTP status code of the
response.  On the zero content-length path the file has been opened and at
most one chunk written before the first progress log divides by zero. -/
def downloadStep (env : Env) (db : DB) (fs : FS) (feedItemId : Nat)
    (itemFile itemUrl : String) : DB × FS × Bool × Option PyErr :=
  if fileExists fs itemFile then
    (db, fs, false, none)
  else
    match env.enclosures itemUrl with
    | none => (db, fs, true, some .connectionError)
    | some resp =>
      match resp.contentLength with
      | none => (db, fs, true, some (.keyError "content-length"))
      | some cl =>
        match pyInt? cl with
        | none => (db, fs, true, some .valueError)
        | some expected =>
          if expected == 0 then
            (db, writeFile fs itemFile (min resp.bodyBytes 65536), true, some .zeroDivisionError)
          else
            ({ db with items := db.items.map (setPathRow feedItemId itemFile) },
             writeFile fs itemFile resp.bodyBytes, true, none)

/-- The loop body after the extractions (lines 245-288): upsert the item,
read back its download_path (SELECT ... fetchone at lines 259-263), resolve
the file path (stored path when non-null, canonical path otherwise), then
the download block. -/
def processExtracted (env : Env) (db : DB) (fs : FS) (fid : Nat) (feedDir : String)
    (ex : ExtractedItem) : RunResult :=
  let up := upsert_feed_item db fid ex.guid ex.title ex.description (isoformat ex.pubDate)
    ex.duration ex.url ex.enclosure_length ex.enclosure_type ex.season
  match (up.2).items.find? (idMatch up.1) with
  | none => ⟨up.2, fs, [], some .typeError⟩
  | some row =>
    let item_file := match row.download_path with
      | none => canonicalFile feedDir ex
      | some p => p
    let dl := downloadStep env up.2 fs up.1 item_file ex.url
    ⟨dl.1, dl.2.1, if dl.2.2.1 then [(ex.guid, item_file)] else [], dl.2.2.2⟩

/-- One iteration of the item loop (lines 230-288). -/
def processItem (env : Env) (db : DB) (fs : FS) (fid : Nat) (feedDir : String)
    (item : XVal) : RunResult :=
  match extractItem item with
  | .error e => ⟨db, fs, [], some e⟩
  | .ok ex => processExtracted env db fs fid feedDir ex

/-- The item loop: items processed in document order, stopping at the
first exception (which propagates out of process_one_feed). -/
def processItems (env : Env) (db : DB) (fs : FS) (fid : Nat) (feedDir : String) :
    List XVal → RunResult
  | [] => ⟨db, fs, [], none⟩
  | it :: rest =>
    let r := processItem env db fs fid feedDir it
    match r.err with
    | some e => ⟨r.db, r.fs, r.downloads, some e⟩
    | none =>
      let r2 := processItems env r.db r.fs fid feedDir rest
      ⟨r2.db, r2.fs, r.downloads ++ r2.downloads, r2.err⟩

/-- process_one_feed from download_feeds.py lines 217-288: fetch and parse
the feed, read channel and title, upsert the feed (with one snapshot),
create the feed directory (untracked), then loop over channel["item"]. -/
def process_one_feed (env : Env) (db : DB) (fs : FS) (feed_url : String) : RunResult :=
  match env.feeds feed_url with
  | none => ⟨db, fs, [], some .fetchError⟩
  | some feedX =>
    match (pyIndex feedX "rss").bind (fun r => pyIndex r "channel") with
    | .error e => ⟨db, fs, [], some e⟩
    | .ok channel =>
      match (pyIndex channel "title").bind asStr with
      | .error e => ⟨db, fs, [], some e⟩
      | .ok title =>
        let up := upsert_feed db feed_url title (xvalToJson feedX)
        let feedDir := safe_filename title
        match (pyIndex channel "item").bind pyIter with
        | .error e => ⟨up.2, fs, [], some e⟩
        | .ok items => processItems env up.2 fs up.1 feedDir items

/-- The state after a batch run of main (lines 297-307): committed
database, filesystem, and the feed references reported as failed. -/
structure BatchResult where
  db : DB
  fs : FS
  failures : List String
deriving DecidableEq, Repr

/-- The batch loop of main, lines 297-307: process each feed reference in
order; commit on success, roll the database back (but not the filesystem)
on an exception and continue with the next reference. -/
def runBatch (env : Env) (db : DB) (fs : FS) : List String → BatchResult
  | [] => ⟨db, fs, []⟩
  | ref :: rest =>
    let r := process_one_feed env db fs ref
    match r.err with
    | none =>
      let b := runBatch env r.db r.fs rest
      ⟨b.db, b.fs, b.failures⟩
    | some _ =>
      let b := runBatch env db r.fs rest
      ⟨b.db, b.fs, ref :: b.failures⟩

/-- A sequence of ingestion runs (repeated invocations of main against the
same database and download directory). -/
def runMany (env : Env) (db : DB) (fs : FS) : List (List String) → DB × FS
  | [] => (db, fs)
  | refs :: rest =>
    let b := runBatch env db fs refs
    runMany env b.db b.fs rest

/-- Columns of the feed_item table created by get_database in
download_feeds.py (lines 66-85), in declaration order. -/
def download_feeds_feed_item_columns : List String :=
  ["feed_item_id", "feed_id", "guid", "date_added", "title", "description", "pub_date",
   "itunes_duration", "enclosure_url", "enclosure_length", "enclosure_type",
   "itunes_season", "download_path"]

/-- Columns of the feed_item table created by get_database in feedcli.py
(lines 59-80), in declaration order. -/
def feedcli_feed_item_columns : List String :=
  ["feed_item_id", "feed_id", "guid", "date_added", "title", "pub_date",
   "itunes_duration", "enclosure_url", "enclosure_length", "enclosure_type",
   "itunes_season", "download_path"]

/-- Columns the SQL text of list_items (feedcli.py lines 110-124)
references by name, in its WHERE and ORDER BY clauses.  sqlite refuses to
prepare the statement when any of them is absent from the schema. -/
def list_items_referenced_columns : List String :=
  ["feed_id", "title", "description", "pub_date"]

/-- A row as the query surface sees it: column name to value, NULL as
none. -/
abbrev SqlRow := List (String × Option String)

def lookupCol (r : SqlRow) (c : String) : Option String :=
  (r.find? (fun e => e.1 == c)).bind (fun e => e.2)

/-- Matching a column against the LIKE pattern built from a filter string
d as the pattern percent-d-percent: substring containment; NULL never
matches. -/
def sqlLikeContains (v : Option String) (needle : String) : Bool :=
  match v with
  | none => false
  | some s => hasSegment needle.data s.data

/-- list_items from feedcli.py lines 110-124, modelled over a table with
the given schema: the statement fails to prepare (no such column) when a
referenced column is missing from the schema; otherwise rows are filtered
by the three optional filters.  (The ORDER BY pub_date reordering is not
modelled; the claims concern only which rows can match.) -/
def list_items (schema : List String) (rows : List SqlRow)
    (feed_id title description : Option String) : Except String (List SqlRow) :=
  if list_items_referenced_columns.all (fun c => schema.contains c) then
    .ok (rows.filter (fun r =>
      (match feed_id with
       | none => true
       | some f => lookupCol r "feed_id" == some f) &&
      (match title with
       | none => true
       | some t => sqlLikeContains (lookupCol r "title") t) &&
      (match description with
       | none => true
       | some d => sqlLikeContains (lookupCol r "description") d)))
  else .error "no such column"

/-! ### Concrete scenarios -/

/-- The item of the C1 end-to-end scenario: title Ep 1, GUID abc123,
publish date Mon, 02 Jan 2023 10:00:00 GMT, enclosure of 100 bytes. -/
def c1item : XVal := xdict [
  ("title", .str "Ep 1"),
  ("guid", xdict [("@isPermaLink", .str "false"), ("#text", .str "abc123")]),
  ("description", .str "first episode"),
  ("pubDate", .str "Mon, 02 Jan 2023 10:00:00 GMT"),
  ("enclosure", xdict [("@url", .str "http://ex.com/ep1.mp3"), ("@length", .str "100"),
    ("@type", .str "audio/mpeg")])]

/-- The C1 feed document as xmltodict.parse returns it for a channel with
EXACTLY ONE item element: repeated elements become lists, but a single
child element stays a dict, so channel["item"] is the item dict itself
(xmltodict documented behaviour; force_list is not used by the source). -/
def c1feed : XVal := xdict [("rss", xdict [("channel", xdict [
  ("title", .str "Example Show"),
  ("item", c1item)])])]

def c1url : String := "http://ex.com/feed"

def c1env : Env :=
  ⟨fun u => if u == c1url then some c1feed else none,
   fun u => if u == "http://ex.com/ep1.mp3" then some ⟨200, some "100", 100⟩ else none⟩


/-- A well-formed item used by several scenarios (guid g1). -/
def mkItem (title guid desc pubDate url len : String) : XVal := xdict [
  ("title", .str title),
  ("guid", xdict [("#text", .str guid)]),
  ("description", .str desc),
  ("pubDate", .str pubDate),
  ("enclosure", xdict [("@url", .str url), ("@length", .str len),
    ("@type", .str "audio/mpeg")])]

/-- A feed document whose channel carries two or more items (so that
channel["item"] is a list, as xmltodict produces for repeated elements). -/
def mkFeed (title : String) (items : List XVal) : XVal :=
  xdict [("rss", xdict [("channel", xdict [
    ("title", .str title),
    ("item", xlist items)])])]

def c2url : String := "http://ex.com/c2feed"

def c2feed : XVal := mkFeed "Show" [
  mkItem "E1" "c2g1" "d1" "Mon, 02 Jan 2023 10:00:00 GMT" "http://ex.com/c2e1.mp3" "100",
  mkItem "E2" "c2g2" "d2" "Mon, 09 Jan 2023 10:00:00 GMT" "http://ex.com/c2e2.mp3" "50"]

/-- The enclosure of the first C2 item answers 404 Not Found, with a
content-length header and a 100-byte error body. -/
def c2env : Env :=
  ⟨fun u => if u == c2url then some c2feed else none,
   fun u => if u == "http://ex.com/c2e1.mp3" then some ⟨404, some "100", 100⟩
            else if u == "http://ex.com/c2e2.mp3" then some ⟨200, some "50", 50⟩ else none⟩


def c3url : String := "http://ex.com/c3feed"

def c3item1 : XVal :=
  mkItem "E1" "c3g1" "d1" "Mon, 02 Jan 2023 10:00:00 GMT" "http://ex.com/c3e1.mp3" "100"

/-- The second item of the C3 feed has a pubDate that does not match the
fixed strptime format. -/
def c3item2 : XVal :=
  mkItem "E2" "c3g2" "d2" "2023-01-09" "http://ex.com/c3e2.mp3" "50"

def c3channel : XVal := xdict [("title", .str "Show"), ("item", xlist [c3item1, c3item2])]

def c3feed : XVal := xdict [("rss", xdict [("channel", c3channel)])]

def c3env : Env :=
  ⟨fun u => if u == c3url then some c3feed else none,
   fun u => if u == "http://ex.com/c3e1.mp3" then some ⟨200, some "100", 100⟩
            else if u == "http://ex.com/c3e2.mp3" then some ⟨200, some "50", 50⟩ else none⟩

/-- The metadata arguments of one upsert_feed_item call (everything but
the fixed feed id and guid). -/
structure MetaArgs where
  title : String
  description : String
  pub_date : String
  itunes_duration : Option String
  enclosure_url : String
  enclosure_length : String
  enclosure_type : String
  itunes_season : Option String
deriving DecidableEq, Repr

/-- A sequence of upsert_feed_item calls against a fixed (feed_id, guid)
pair, in order. -/
def upsertItemSeq (db : DB) (fid : Nat) (g : String) : List MetaArgs → DB
  | [] => db
  | m :: rest =>
    upsertItemSeq (upsert_feed_item db fid g m.title m.description m.pub_date
      m.itunes_duration m.enclosure_url m.enclosure_length m.enclosure_type
      m.itunes_season).2 fid g rest

def c6m1 : MetaArgs := ⟨"T1", "D1", "P1", none, "U1", "L1", "Y1", none⟩

def c6m2 : MetaArgs := ⟨"T2", "D2", "P2", some "0:30:00", "U2", "L2", "Y2", some "3"⟩

/-! Scenario for C4: three feed references, the second unreachable. -/

def c4u1 : String := "http://ex.com/feed-one"
def c4u2 : String := "http://ex.com/feed-two"
def c4u3 : String := "http://ex.com/feed-three"

def c4feed1 : XVal := mkFeed "Show One" [
  mkItem "A1" "c4g11" "d" "Mon, 02 Jan 2023 10:00:00 GMT" "http://ex.com/c4a1.mp3" "10",
  mkItem "A2" "c4g12" "d" "Mon, 09 Jan 2023 10:00:00 GMT" "http://ex.com/c4a2.mp3" "20"]

def c4feed3 : XVal := mkFeed "Show Three" [
  mkItem "B1" "c4g31" "d" "Mon, 16 Jan 2023 10:00:00 GMT" "http://ex.com/c4b1.mp3" "30",
  mkItem "B2" "c4g32" "d" "Mon, 23 Jan 2023 10:00:00 GMT" "http://ex.com/c4b2.mp3" "40"]

/-- Feeds one and three resolve; feed two is unreachable (fetch raises). -/
def env4 : Env :=
  ⟨fun u => if u == c4u1 then some c4feed1
            else if u == c4u3 then some c4feed3 else none,
   fun u => if u == "http://ex.com/c4a1.mp3" then some ⟨200, some "10", 10⟩
            else if u == "http://ex.com/c4a2.mp3" then some ⟨200, some "20", 20⟩
            else if u == "http://ex.com/c4b1.mp3" then some ⟨200, some "30", 30⟩
            else if u == "http://ex.com/c4b2.mp3" then some ⟨200, some "40", 40⟩ else none⟩

def c4b1 : RunResult := process_one_feed env4 emptyDB [] c4u1
def c4b2 : RunResult := process_one_feed env4 c4b1.db c4b1.fs c4u2
def c4b3 : RunResult := process_one_feed env4 c4b1.db c4b2.fs c4u3

/-! Scenario for C7: a database already holding an episode with a recorded
download path, re-ingested from a feed that repeats the episode. -/

def c7row : ItemRow :=
  ⟨1, 1, "c7g1", "E1", "d1", "2023-01-02T10:00:00", none, "http://ex.com/c7e1.mp3", "100",
   "audio/mpeg", none, some "Show/2023-01-02 E1.mp3"⟩

def db7 : DB :=
  ⟨[⟨1, "http://ex.com/c7feed", "Show"⟩], [], [c7row], 2, 2⟩

def c7feed : XVal := mkFeed "Show" [
  mkItem "E1" "c7g1" "d1" "Mon, 02 Jan 2023 10:00:00 GMT" "http://ex.com/c7e1.mp3" "100",
  mkItem "E2" "c7g2" "d2" "Mon, 09 Jan 2023 10:00:00 GMT" "http://ex.com/c7e2.mp3" "50"]

def env7 : Env :=
  ⟨fun u => if u == "http://ex.com/c7feed" then some c7feed else none,
   fun u => if u == "http://ex.com/c7e1.mp3" then some ⟨200, some "100", 100⟩
            else if u == "http://ex.com/c7e2.mp3" then some ⟨200, some "50", 50⟩ else none⟩

/-! Scenario for C8: an episode with a recorded path whose file is on
disk; a second episode still to download. -/

def c8rpath : String := "Show/2023-01-02 E1.mp3"

def c8row : ItemRow :=
  ⟨1, 1, "c8g1", "E1", "d1", "2023-01-02T10:00:00", none, "http://ex.com/c8e1.mp3", "100",
   "audio/mpeg", none, some c8rpath⟩

def db8 : DB :=
  ⟨[⟨1, "http://ex.com/c8feed", "Show"⟩], [], [c8row], 2, 2⟩

def fs8 : FS := [(c8rpath, 100)]

def c8item1 : XVal :=
  mkItem "E1" "c8g1" "d1" "Mon, 02 Jan 2023 10:00:00 GMT" "http://ex.com/c8e1.mp3" "100"

def c8item2 : XVal :=
  mkItem "E2" "c8g2" "d2" "Mon, 09 Jan 2023 10:00:00 GMT" "http://ex.com/c8e2.mp3" "50"

def c8channel : XVal := xdict [("title", .str "Show"), ("item", xlist [c8item1, c8item2])]

def c8feed : XVal := xdict [("rss", xdict [("channel", c8channel)])]

def env8 : Env :=
  ⟨fun u => if u == "http://ex.com/c8feed" then some c8feed else none,
   fun u => if u == "http://ex.com/c8e1.mp3" then some ⟨200, some "100", 100⟩
            else if u == "http://ex.com/c8e2.mp3" then some ⟨200, some "50", 50⟩ else none⟩

/-! Scenario for C9: a fresh database, but the canonical file of the first
episode is already on disk. -/

def c9item : XVal :=
  mkItem "E1" "c9g1" "d1" "Mon, 02 Jan 2023 10:00:00 GMT" "http://ex.com/c9e1.mp3" "100"

def c9ex : ExtractedItem :=
  ⟨"E1", "http://ex.com/c9e1.mp3", ⟨2023, 1, 2, 10, 0, 0⟩, none, "c9g1", "d1", none,
   "100", "audio/mpeg"⟩

def fs9 : FS := [("Show/2023-01-02 E1.mp3", 100)]

def env9 : Env :=
  ⟨fun _ => none,
   fun u => if u == "http://ex.com/c9e1.mp3" then some ⟨200, some "100", 100⟩ else none⟩

/-! Scenario for the C2 amended statement witness: a response with a 404
status and no content-length header. -/

def env2w : Env :=
  ⟨fun _ => none,
   fun u => if u == "http://ex.com/c2w.mp3" then some ⟨404, none, 100⟩ else none⟩

/-! ### List toolkit -/

theorem find?_append_some {α} {p : α → Bool} {l1 l2 : List α} {a : α}
    (h : l1.find? p = some a) : (l1 ++ l2).find? p = some a := by
  induction l1 with
  | nil => simp [List.find?] at h
  | cons x xs ih =>
    by_cases hx : p x
    · rw [List.find?_cons_of_pos _ hx] at h
      simpa [List.find?_cons_of_pos _ hx] using h
    · rw [List.find?_cons_of_neg _ hx] at h
      simpa [List.find?_cons_of_neg _ hx] using ih h

theorem find?_append_none {α} {p : α → Bool} {l1 l2 : List α}
    (h : l1.find? p = none) : (l1 ++ l2).find? p = l2.find? p := by
  induction l1 with
  | nil => simp
  | cons x xs ih =>
    by_cases hx : p x
    · rw [List.find?_cons_of_pos _ hx] at h; exact absurd h (by simp)
    · rw [List.find?_cons_of_neg _ hx] at h
      simpa [List.find?_cons_of_neg _ hx] using ih h

/-- find? commutes with a map that preserves the predicate on the list. -/
theorem find?_map_pres {α} {p : α → Bool} {f : α → α} {l : List α}
    (h : ∀ x ∈ l, p (f x) = p x) : (l.map f).find? p = (l.find? p).map f := by
  induction l with
  | nil => simp
  | cons x xs ih =>
    have hx := h x (by simp)
    by_cases hpx : p x
    · rw [List.map_cons, List.find?_cons_of_pos _ (by rw [hx]; exact hpx),
        List.find?_cons_of_pos _ hpx]
      rfl
    · rw [List.map_cons, List.find?_cons_of_neg _ (by rw [hx]; simpa using hpx),
        List.find?_cons_of_neg _ hpx]
      exact ih (fun y hy => h y (by simp [hy]))

/-- countP is stable under a map that preserves the predicate on the list. -/
theorem countP_map_pres {α} {p : α → Bool} {f : α → α} {l : List α}
    (h : ∀ x ∈ l, p (f x) = p x) : (l.map f).countP p = l.countP p := by
  induction l with
  | nil => simp
  | cons x xs ih =>
    have hx := h x (by simp)
    simp only [List.map_cons, List.countP_cons, hx]
    rw [ih (fun y hy => h y (by simp [hy]))]

/-- In a list whose keys are nodup, elements with equal keys are equal. -/
theorem nodup_key_inj {α β} {key : α → β} {l : List α}
    (h : (l.map key).Nodup) {a b : α} (ha : a ∈ l) (hb : b ∈ l)
    (hk : key a = key b) : a = b := by
  induction l with
  | nil => cases ha
  | cons x xs ih =>
    rw [List.map_cons, List.nodup_cons] at h
    rcases List.mem_cons.mp ha with rfl | ha'
    · rcases List.mem_cons.mp hb with rfl | hb'
      · rfl
      · exact absurd (hk ▸ List.mem_map_of_mem key hb') h.1
    · rcases List.mem_cons.mp hb with rfl | hb'
      · exact absurd (hk ▸ List.mem_map_of_mem key ha') h.1
      · exact ih h.2 ha' hb'

/-- With nodup keys, searching for the key of a member finds exactly that
member. -/
theorem find?_key_self {α} {key : α → Nat} {l : List α}
    (h : (l.map key).Nodup) {m : α} (hm : m ∈ l) :
    l.find? (fun x => key x == key m) = some m := by
  induction l with
  | nil => cases hm
  | cons x xs ih =>
    rw [List.map_cons, List.nodup_cons] at h
    rcases List.mem_cons.mp hm with rfl | hm'
    · exact List.find?_cons_of_pos _ (by simp)
    · have hne : key x ≠ key m := by
        intro he
        exact h.1 (he ▸ List.mem_map_of_mem key hm')
      rw [List.find?_cons_of_neg _ (by simpa using hne)]
      exact ih h.2 hm'

/-- Appending an element with a fresh key preserves key nodup-ness. -/
theorem nodup_key_append {α} {key : α → Nat} {l : List α} {a : α}
    (h : (l.map key).Nodup) (ha : ∀ x ∈ l, key x ≠ key a) :
    ((l ++ [a]).map key).Nodup := by
  rw [List.map_append, List.map_singleton]
  apply List.Nodup.append h (List.nodup_singleton _)
  intro b hb hb'
  rw [List.mem_singleton] at hb'
  rcases List.mem_map.mp hb with ⟨x, hx, rfl⟩
  exact ha x hx hb'

/-- any is stable under a map that preserves the predicate on the list. -/
theorem any_map_pres {α} {p : α → Bool} {f : α → α} {l : List α}
    (h : ∀ x ∈ l, p (f x) = p x) : (l.map f).any p = l.any p := by
  induction l with
  | nil => rfl
  | cons x xs ih =>
    simp only [List.map_cons, List.any_cons, h x (by simp)]
    rw [ih (fun y hy => h y (by simp [hy]))]

/-- The keys of a mapped list agree with the original when the map
preserves keys on the list. -/
theorem map_key_map_pres {α} {key : α → Nat} {f : α → α} {l : List α}
    (h : ∀ x ∈ l, key (f x) = key x) : (l.map f).map key = l.map key := by
  induction l with
  | nil => rfl
  | cons x xs ih =>
    simp only [List.map_cons, h x (by simp)]
    rw [ih (fun y hy => h y (by simp [hy]))]


/-! ### Row update facts -/

@[simp] theorem setMeta_feed_item_id (g t d pd : String) (du : Option String)
    (u le ty : String) (se : Option String) (s : ItemRow) :
    (setMeta g t d pd du u le ty se s).feed_item_id = s.feed_item_id := rfl

@[simp] theorem setMeta_feed_id (g t d pd : String) (du : Option String)
    (u le ty : String) (se : Option String) (s : ItemRow) :
    (setMeta g t d pd du u le ty se s).feed_id = s.feed_id := rfl

@[simp] theorem setMeta_guid (g t d pd : String) (du : Option String)
    (u le ty : String) (se : Option String) (s : ItemRow) :
    (setMeta g t d pd du u le ty se s).guid = g := rfl

@[simp] theorem setMeta_download_path (g t d pd : String) (du : Option String)
    (u le ty : String) (se : Option String) (s : ItemRow) :
    (setMeta g t d pd du u le ty se s).download_path = s.download_path := rfl

@[simp] theorem setPathRow_feed_item_id (tid : Nat) (file : String) (r : ItemRow) :
    (setPathRow tid file r).feed_item_id = r.feed_item_id := by
  unfold setPathRow; by_cases h : idMatch tid r <;> simp [h]

@[simp] theorem setPathRow_itemMatch (tid : Nat) (file : String) (fid : Nat) (g : String)
    (r : ItemRow) : itemMatch fid g (setPathRow tid file r) = itemMatch fid g r := by
  unfold setPathRow; by_cases h : idMatch tid r <;> simp [h, itemMatch]

theorem setPathRow_download_path (tid : Nat) (file : String) (r : ItemRow) :
    (setPathRow tid file r).download_path =
      if r.feed_item_id == tid then some file else r.download_path := by
  unfold setPathRow idMatch; by_cases h : r.feed_item_id == tid <;> simp [h]

/-! ### upsert_feed facts -/

theorem upsert_feed_items_eq (db : DB) (u t d : String) :
    (upsert_feed db u t d).2.items = db.items := by
  unfold upsert_feed
  cases h : db.feeds.find? (feedUrlMatch u) <;> simp [h]

theorem upsert_feed_nextItemId_eq (db : DB) (u t d : String) :
    (upsert_feed db u t d).2.nextItemId = db.nextItemId := by
  unfold upsert_feed
  cases h : db.feeds.find? (feedUrlMatch u) <;> simp [h]

theorem upsert_feed_wf {db : DB} (hwf : wfDB db) (u t d : String) :
    wfDB (upsert_feed db u t d).2 := by
  unfold wfDB
  rw [upsert_feed_items_eq, upsert_feed_nextItemId_eq]
  exact hwf

theorem upsert_feed_pathState (db : DB) (u t d : String) (fid : Nat) (g : String) :
    pathState (upsert_feed db u t d).2 fid g = pathState db fid g := by
  unfold pathState findItemRow
  rw [upsert_feed_items_eq]

/-! ### upsert_feed_item facts -/

theorem upsert_item_wf {db : DB} (hwf : wfDB db) (fid : Nat) (g t d pd : String)
    (du : Option String) (u le ty : String) (se : Option String) :
    wfDB (upsert_feed_item db fid g t d pd du u le ty se).2 := by
  unfold upsert_feed_item
  cases h : db.items.find? (itemMatch fid g) with
  | none =>
    refine ⟨?_, ?_⟩
    · exact nodup_key_append hwf.1 (fun x hx => Nat.ne_of_lt (hwf.2 x hx))
    · intro r hr
      rcases List.mem_append.mp hr with hr | hr
      · exact Nat.lt_succ_of_lt (hwf.2 r hr)
      · rw [List.mem_singleton] at hr; subst hr; exact Nat.lt_succ_self _
  | some r =>
    refine ⟨?_, ?_⟩
    · rw [map_key_map_pres (fun x _ => by
        by_cases hx : idMatch r.feed_item_id x <;> simp [hx])]
      exact hwf.1
    · intro s hs
      rcases List.mem_map.mp hs with ⟨x, hx, rfl⟩
      have : (if idMatch r.feed_item_id x then
          setMeta g t d pd du u le ty se x else x).feed_item_id = x.feed_item_id := by
        by_cases hx' : idMatch r.feed_item_id x <;> simp [hx']
      rw [this]
      exact hwf.2 x hx

/-- The row the SELECT at lines 259-263 reads back right after the upsert:
it carries the metadata of this call and the download_path the episode had
before the call (none when the row was just inserted). -/
theorem upsert_item_find_id {db : DB} (hwf : wfDB db) (fid : Nat) (g t d pd : String)
    (du : Option String) (u le ty : String) (se : Option String) :
    (upsert_feed_item db fid g t d pd du u le ty se).2.items.find?
        (idMatch (upsert_feed_item db fid g t d pd du u le ty se).1) =
      some ⟨(upsert_feed_item db fid g t d pd du u le ty se).1, fid, g, t, d, pd, du, u, le, ty,
        se, pathState db fid g⟩ := by
  rcases h : db.items.find? (itemMatch fid g) with _ | r
  · have hps : pathState db fid g = none := by
      unfold pathState findItemRow; rw [h]; rfl
    have hnone : db.items.find? (idMatch db.nextItemId) = none := by
      rw [List.find?_eq_none]
      intro x hx
      unfold idMatch
      simpa using Nat.ne_of_lt (hwf.2 x hx)
    simp only [upsert_feed_item, h, hps]
    rw [find?_append_none hnone]
    rw [List.find?_cons_of_pos _ (show idMatch db.nextItemId _ = true by unfold idMatch; simp)]
  · have hr_mem : r ∈ db.items := List.mem_of_find?_eq_some h
    have hr_match : itemMatch fid g r = true := List.find?_some h
    have hboth : r.feed_id = fid ∧ r.guid = g := by
      unfold itemMatch at hr_match; simpa using hr_match
    have hps : pathState db fid g = r.download_path := by
      unfold pathState findItemRow; rw [h]; rfl
    have hpres : ∀ x ∈ db.items,
        idMatch r.feed_item_id (if idMatch r.feed_item_id x then
          setMeta g t d pd du u le ty se x else x) = idMatch r.feed_item_id x := by
      intro x _
      unfold idMatch
      by_cases hx : x.feed_item_id = r.feed_item_id <;> simp [hx]
    have hself : db.items.find? (idMatch r.feed_item_id) = some r := by
      have := @find?_key_self ItemRow (fun x => x.feed_item_id) db.items hwf.1 r hr_mem
      simpa [idMatch] using this
    have hid : idMatch r.feed_item_id r = true := by unfold idMatch; simp
    simp only [upsert_feed_item, h, hps]
    rw [find?_map_pres hpres, hself]
    simp only [Option.map_some', hid, if_true]
    cases r
    obtain ⟨h1, h2⟩ := hboth
    simp only at h1 h2
    subst h1; subst h2
    rfl

/-- Any upsert_feed_item call leaves the recorded download path of every
episode unchanged (the INSERT leaves download_path NULL, the UPDATE does
not list it). -/
theorem upsert_item_pathState {db : DB} (hwf : wfDB db) (fid' : Nat) (g' t d pd : String)
    (du : Option String) (u le ty : String) (se : Option String) (fid : Nat) (g : String) :
    pathState (upsert_feed_item db fid' g' t d pd du u le ty se).2 fid g =
      pathState db fid g := by
  rcases h : db.items.find? (itemMatch fid' g') with _ | r
  · unfold pathState findItemRow
    simp only [upsert_feed_item, h]
    rcases hf : db.items.find? (itemMatch fid g) with _ | r
    · rw [find?_append_none hf]
      rcases hnew : itemMatch fid g
          ⟨db.nextItemId, fid', g', t, d, pd, du, u, le, ty, se, none⟩ with _ | _
      · rw [List.find?_cons_of_neg _ (by rw [hnew]; exact fun h => nomatch h)]; rfl
      · rw [List.find?_cons_of_pos _ hnew]; rfl
    · rw [find?_append_some hf]
  · have hr_mem : r ∈ db.items := List.mem_of_find?_eq_some h
    have hg' : r.guid = g' := by
      have hm := List.find?_some h
      unfold itemMatch at hm
      have hm' : r.feed_id = fid' ∧ r.guid = g' := by simpa using hm
      exact hm'.2
    unfold pathState findItemRow
    simp only [upsert_feed_item, h]
    have hpres : ∀ x ∈ db.items,
        itemMatch fid g (if idMatch r.feed_item_id x then
          setMeta g' t d pd du u le ty se x else x) = itemMatch fid g x := by
      intro x hx
      by_cases hid : idMatch r.feed_item_id x
      · have hxr : x = r := by
          apply nodup_key_inj hwf.1 hx hr_mem
          unfold idMatch at hid; simpa using hid
        subst hxr
        simp [hid, itemMatch, hg']
      · simp [hid]
    rw [find?_map_pres hpres]
    rcases hf : db.items.find? (itemMatch fid g) with _ | r'
    · rfl
    · simp only [Option.map_some']
      by_cases hid : idMatch r.feed_item_id r' <;> simp [hid]

/-! ### download block facts -/

theorem downloadStep_skip {fs : FS} {file : String} (env : Env) (db : DB) (tid : Nat)
    (url : String) (h : fileExists fs file = true) :
    downloadStep env db fs tid file url = (db, fs, false, none) := by
  unfold downloadStep; rw [if_pos h]

/-- The database after the download block is either untouched or has
download_path set to the streamed file for the rows with the target id. -/
theorem downloadStep_db_cases (env : Env) (db : DB) (fs : FS) (tid : Nat)
    (file url : String) :
    (downloadStep env db fs tid file url).1 = db ∨
    (downloadStep env db fs tid file url).1 =
      { db with items := db.items.map (setPathRow tid file) } := by
  unfold downloadStep
  split
  · left; rfl
  · split
    · left; rfl
    · split
      · left; rfl
      · split
        · left; rfl
        · split
          · left; rfl
          · right; rfl

theorem downloadStep_wf {db : DB} (hwf : wfDB db) (env : Env) (fs : FS) (tid : Nat)
    (file url : String) : wfDB (downloadStep env db fs tid file url).1 := by
  rcases downloadStep_db_cases env db fs tid file url with h | h <;> rw [h]
  · exact hwf
  · refine ⟨?_, ?_⟩
    · rw [map_key_map_pres (fun x _ => setPathRow_feed_item_id tid file x)]
      exact hwf.1
    · intro s hs
      rcases List.mem_map.mp hs with ⟨x, hx, rfl⟩
      rw [setPathRow_feed_item_id]
      exact hwf.2 x hx

/-- The recorded path after setting download_path for the target id. -/
theorem pathState_setPath (db : DB) (tid : Nat) (file : String) (fid : Nat) (g : String) :
    pathState { db with items := db.items.map (setPathRow tid file) } fid g =
      (findItemRow db fid g).bind
        (fun r => if r.feed_item_id == tid then some file else r.download_path) := by
  unfold pathState findItemRow
  simp only
  rw [find?_map_pres (fun x _ => setPathRow_itemMatch tid file fid g x)]
  rcases h : db.items.find? (itemMatch fid g) with _ | r
  · rfl
  · simp only [Option.map_some', Option.some_bind]
    rw [setPathRow_download_path]

/-! ### Loop body facts -/

/-- Characterisation of the loop body after the extractions, on a
well-formed database: the SELECT at lines 259-263 always finds the
upserted row, the resolved file is resolvedFile, and the download block
runs against it. -/
theorem processExtracted_eq {db : DB} (hwf : wfDB db) (env : Env) (fs : FS) (fid : Nat)
    (dir : String) (ex : ExtractedItem) :
    processExtracted env db fs fid dir ex =
      ⟨(downloadStep env (upsert_feed_item db fid ex.guid ex.title ex.description
          (isoformat ex.pubDate) ex.duration ex.url ex.enclosure_length ex.enclosure_type
          ex.season).2 fs
          (upsert_feed_item db fid ex.guid ex.title ex.description (isoformat ex.pubDate)
            ex.duration ex.url ex.enclosure_length ex.enclosure_type ex.season).1
          (resolvedFile db fid dir ex) ex.url).1,
        (downloadStep env (upsert_feed_item db fid ex.guid ex.title ex.description
          (isoformat ex.pubDate) ex.duration ex.url ex.enclosure_length ex.enclosure_type
          ex.season).2 fs
          (upsert_feed_item db fid ex.guid ex.title ex.description (isoformat ex.pubDate)
            ex.duration ex.url ex.enclosure_length ex.enclosure_type ex.season).1
          (resolvedFile db fid dir ex) ex.url).2.1,
        if (downloadStep env (upsert_feed_item db fid ex.guid ex.title ex.description
          (isoformat ex.pubDate) ex.duration ex.url ex.enclosure_length ex.enclosure_type
          ex.season).2 fs
          (upsert_feed_item db fid ex.guid ex.title ex.description (isoformat ex.pubDate)
            ex.duration ex.url ex.enclosure_length ex.enclosure_type ex.season).1
          (resolvedFile db fid dir ex) ex.url).2.2.1
          then [(ex.guid, resolvedFile db fid dir ex)] else [],
        (downloadStep env (upsert_feed_item db fid ex.guid ex.title ex.description
          (isoformat ex.pubDate) ex.duration ex.url ex.enclosure_length ex.enclosure_type
          ex.season).2 fs
          (upsert_feed_item db fid ex.guid ex.title ex.description (isoformat ex.pubDate)
            ex.duration ex.url ex.enclosure_length ex.enclosure_type ex.season).1
          (resolvedFile db fid dir ex) ex.url).2.2.2⟩ := by
  have hfind := upsert_item_find_id hwf fid ex.guid ex.title ex.description
    (isoformat ex.pubDate) ex.duration ex.url ex.enclosure_length ex.enclosure_type ex.season
  simp only [processExtracted, hfind]
  unfold resolvedFile
  rcases hst : pathState db fid ex.guid with _ | p <;> simp [hst]

theorem processExtracted_wf {db : DB} (hwf : wfDB db) (env : Env) (fs : FS) (fid : Nat)
    (dir : String) (ex : ExtractedItem) :
    wfDB (processExtracted env db fs fid dir ex).db := by
  rw [processExtracted_eq hwf]
  exact downloadStep_wf (upsert_item_wf hwf fid ex.guid ex.title ex.description
    (isoformat ex.pubDate) ex.duration ex.url ex.enclosure_length ex.enclosure_type
    ex.season) env fs _ _ ex.url

/-- The loop body never clears or changes an already recorded download
path: it either leaves it alone or rewrites it with the identical value
(the resolved file IS the stored path when one is recorded). -/
theorem processExtracted_pathState_some {db : DB} {fid : Nat} {g p : String}
    (env : Env) (fs : FS) (fid' : Nat) (dir : String) (ex : ExtractedItem)
    (hwf : wfDB db) (hp : pathState db fid g = some p) :
    pathState (processExtracted env db fs fid' dir ex).db fid g = some p := by
  rw [processExtracted_eq hwf]
  have hwf1 : wfDB (upsert_feed_item db fid' ex.guid ex.title ex.description
      (isoformat ex.pubDate) ex.duration ex.url ex.enclosure_length ex.enclosure_type
      ex.season).2 :=
    upsert_item_wf hwf fid' ex.guid ex.title ex.description (isoformat ex.pubDate)
      ex.duration ex.url ex.enclosure_length ex.enclosure_type ex.season
  have hp1 : pathState (upsert_feed_item db fid' ex.guid ex.title ex.description
      (isoformat ex.pubDate) ex.duration ex.url ex.enclosure_length ex.enclosure_type
      ex.season).2 fid g = some p := by
    rw [upsert_item_pathState hwf fid' ex.guid ex.title ex.description (isoformat ex.pubDate)
      ex.duration ex.url ex.enclosure_length ex.enclosure_type ex.season fid g]
    exact hp
  rcases downloadStep_db_cases env (upsert_feed_item db fid' ex.guid ex.title ex.description
      (isoformat ex.pubDate) ex.duration ex.url ex.enclosure_length ex.enclosure_type
      ex.season).2 fs
      (upsert_feed_item db fid' ex.guid ex.title ex.description (isoformat ex.pubDate)
        ex.duration ex.url ex.enclosure_length ex.enclosure_type ex.season).1
      (resolvedFile db fid' dir ex) ex.url with hc | hc
  · simp only [hc]; exact hp1
  · simp only [hc]
    rw [pathState_setPath]
    unfold pathState at hp1
    rcases hfi : findItemRow (upsert_feed_item db fid' ex.guid ex.title ex.description
        (isoformat ex.pubDate) ex.duration ex.url ex.enclosure_length ex.enclosure_type
        ex.season).2 fid g with _ | r'
    · rw [hfi] at hp1; cases hp1
    · rw [hfi] at hp1
      simp only [Option.some_bind] at hp1 ⊢
      by_cases hidr : r'.feed_item_id == (upsert_feed_item db fid' ex.guid ex.title
          ex.description (isoformat ex.pubDate) ex.duration ex.url ex.enclosure_length
          ex.enclosure_type ex.season).1
      · rw [if_pos hidr]
        have hfound := upsert_item_find_id hwf fid' ex.guid ex.title ex.description
          (isoformat ex.pubDate) ex.duration ex.url ex.enclosure_length ex.enclosure_type
          ex.season
        have hrowU_mem := List.mem_of_find?_eq_some hfound
        have hr'_mem : r' ∈ (upsert_feed_item db fid' ex.guid ex.title ex.description
            (isoformat ex.pubDate) ex.duration ex.url ex.enclosure_length ex.enclosure_type
            ex.season).2.items :=
          List.mem_of_find?_eq_some hfi
        have hr'_eq : r' = ⟨(upsert_feed_item db fid' ex.guid ex.title ex.description
            (isoformat ex.pubDate) ex.duration ex.url ex.enclosure_length ex.enclosure_type
            ex.season).1, fid', ex.guid, ex.title, ex.description, isoformat ex.pubDate,
            ex.duration, ex.url, ex.enclosure_length, ex.enclosure_type, ex.season,
            pathState db fid' ex.guid⟩ := by
          apply nodup_key_inj hwf1.1 hr'_mem hrowU_mem
          simpa using hidr
        have hps' : pathState db fid' ex.guid = some p := by
          have := hr'_eq ▸ hp1
          simpa using this
        unfold resolvedFile
        rw [hps']
        rfl
      · rw [if_neg hidr]
        exact hp1

theorem processItem_wf {db : DB} (hwf : wfDB db) (env : Env) (fs : FS) (fid : Nat)
    (dir : String) (it : XVal) : wfDB (processItem env db fs fid dir it).db := by
  unfold processItem
  rcases hex : extractItem it with e | ex
  · exact hwf
  · exact processExtracted_wf hwf env fs fid dir ex

theorem processItem_pathState_some {db : DB} {fid : Nat} {g p : String}
    (env : Env) (fs : FS) (fid' : Nat) (dir : String) (it : XVal)
    (hwf : wfDB db) (hp : pathState db fid g = some p) :
    pathState (processItem env db fs fid' dir it).db fid g = some p := by
  unfold processItem
  rcases hex : extractItem it with e | ex
  · exact hp
  · exact processExtracted_pathState_some env fs fid' dir ex hwf hp

theorem processItems_wf {db : DB} (hwf : wfDB db) (env : Env) (fs : FS) (fid : Nat)
    (dir : String) (l : List XVal) : wfDB (processItems env db fs fid dir l).db := by
  induction l generalizing db fs with
  | nil => exact hwf
  | cons it rest ih =>
    simp only [processItems]
    rcases herr : (processItem env db fs fid dir it).err with _ | e
    · simp only [herr]
      exact ih (processItem_wf hwf env fs fid dir it) _
    · simp only [herr]
      exact processItem_wf hwf env fs fid dir it

theorem processItems_pathState_some {db : DB} {fid : Nat} {g p : String}
    (env : Env) (fs : FS) (fid' : Nat) (dir : String) (l : List XVal)
    (hwf : wfDB db) (hp : pathState db fid g = some p) :
    pathState (processItems env db fs fid' dir l).db fid g = some p := by
  induction l generalizing db fs with
  | nil => exact hp
  | cons it rest ih =>
    simp only [processItems]
    rcases herr : (processItem env db fs fid' dir it).err with _ | e
    · simp only [herr]
      exact ih _ (processItem_wf hwf env fs fid' dir it)
        (processItem_pathState_some env fs fid' dir it hwf hp)
    · simp only [herr]
      exact processItem_pathState_some env fs fid' dir it hwf hp

theorem process_one_feed_wf {db : DB} (hwf : wfDB db) (env : Env) (fs : FS) (u : String) :
    wfDB (process_one_feed env db fs u).db := by
  rcases hfeed : env.feeds u with _ | feedX
  · simp only [process_one_feed, hfeed]; exact hwf
  · rcases hch : (pyIndex feedX "rss").bind (fun r => pyIndex r "channel") with e | channel
    · simp only [process_one_feed, hfeed, hch]; exact hwf
    · rcases ht : (pyIndex channel "title").bind asStr with e | title
      · simp only [process_one_feed, hfeed, hch, ht]; exact hwf
      · rcases hit : (pyIndex channel "item").bind pyIter with e | items
        · simp only [process_one_feed, hfeed, hch, ht, hit]
          exact upsert_feed_wf hwf u title (xvalToJson feedX)
        · simp only [process_one_feed, hfeed, hch, ht, hit]
          exact processItems_wf (upsert_feed_wf hwf u title (xvalToJson feedX)) env fs _ _ items

theorem process_one_feed_pathState_some {db : DB} {fid : Nat} {g p : String}
    (env : Env) (fs : FS) (u : String)
    (hwf : wfDB db) (hp : pathState db fid g = some p) :
    pathState (process_one_feed env db fs u).db fid g = some p := by
  rcases hfeed : env.feeds u with _ | feedX
  · simp only [process_one_feed, hfeed]; exact hp
  · rcases hch : (pyIndex feedX "rss").bind (fun r => pyIndex r "channel") with e | channel
    · simp only [process_one_feed, hfeed, hch]; exact hp
    · rcases ht : (pyIndex channel "title").bind asStr with e | title
      · simp only [process_one_feed, hfeed, hch, ht]; exact hp
      · have hp1 : pathState (upsert_feed db u title (xvalToJson feedX)).2 fid g = some p := by
          rw [upsert_feed_pathState]; exact hp
        rcases hit : (pyIndex channel "item").bind pyIter with e | items
        · simp only [process_one_feed, hfeed, hch, ht, hit]; exact hp1
        · simp only [process_one_feed, hfeed, hch, ht, hit]
          exact processItems_pathState_some env fs _ _ items
            (upsert_feed_wf hwf u title (xvalToJson feedX)) hp1

theorem runBatch_wf {db : DB} (hwf : wfDB db) (env : Env) (fs : FS) (refs : List String) :
    wfDB (runBatch env db fs refs).db := by
  induction refs generalizing db fs with
  | nil => exact hwf
  | cons ref rest ih =>
    simp only [runBatch]
    rcases herr : (process_one_feed env db fs ref).err with _ | e
    · simp only [herr]
      exact ih (process_one_feed_wf hwf env fs ref) _
    · simp only [herr]
      exact ih hwf _

theorem runBatch_pathState_some {db : DB} {fid : Nat} {g p : String}
    (env : Env) (fs : FS) (refs : List String)
    (hwf : wfDB db) (hp : pathState db fid g = some p) :
    pathState (runBatch env db fs refs).db fid g = some p := by
  induction refs generalizing db fs with
  | nil => exact hp
  | cons ref rest ih =>
    simp only [runBatch]
    rcases herr : (process_one_feed env db fs ref).err with _ | e
    · simp only [herr]
      exact ih _ (process_one_feed_wf hwf env fs ref)
        (process_one_feed_pathState_some env fs ref hwf hp)
    · simp only [herr]
      exact ih _ hwf hp

theorem runMany_pathState_some_aux {db : DB} {fid : Nat} {g p : String}
    (env : Env) (fs : FS) (batches : List (List String))
    (hwf : wfDB db) (hp : pathState db fid g = some p) :
    pathState (runMany env db fs batches).1 fid g = some p := by
  induction batches generalizing db fs with
  | nil => exact hp
  | cons refs rest ih =>
    simp only [runMany]
    exact ih _ (runBatch_wf hwf env fs refs) (runBatch_pathState_some env fs refs hwf hp)

/-! ### upsert_feed idempotence lemmas -/

theorem upsert_feed_snapshots_len (db : DB) (u t d : String) :
    (upsert_feed db u t d).2.snapshots.length = db.snapshots.length + 1 := by
  unfold upsert_feed
  cases h : db.feeds.find? (feedUrlMatch u) <;> simp [h]

/-- After any upsert_feed call the first row with the URL exists and holds
the id the call returned and the title it wrote. -/
theorem upsert_feed_find_url (db : DB) (u t d : String) :
    (upsert_feed db u t d).2.feeds.find? (feedUrlMatch u) =
      some ⟨(upsert_feed db u t d).1, u, t⟩ := by
  rcases h : db.feeds.find? (feedUrlMatch u) with _ | f
  · simp only [upsert_feed, h]
    rw [find?_append_none h]
    rw [List.find?_cons_of_pos _ (show feedUrlMatch u _ = true by unfold feedUrlMatch; simp)]
  · have hf_mem : f ∈ db.feeds := List.mem_of_find?_eq_some h
    have hf_url : f.feed_url = u := by
      have hm := List.find?_some h
      unfold feedUrlMatch at hm; simpa using hm
    simp only [upsert_feed, h]
    have hpres : ∀ x ∈ db.feeds,
        feedUrlMatch u (if feedUrlMatch u x then { x with title := t } else x) =
          feedUrlMatch u x := by
      intro x _
      unfold feedUrlMatch
      by_cases hx : x.feed_url = u <;> simp [hx]
    rw [find?_map_pres hpres, h]
    have hfm : feedUrlMatch u f = true := by unfold feedUrlMatch; simp [hf_url]
    simp only [Option.map_some', hfm, if_true]
    cases f
    simp only at hf_url
    subst hf_url
    rfl

theorem upsert_feed_id_of_found {db : DB} {u : String} {f : FeedRow}
    (h : db.feeds.find? (feedUrlMatch u) = some f) (t d : String) :
    (upsert_feed db u t d).1 = f.feed_id ∧
    (upsert_feed db u t d).2.feeds.length = db.feeds.length := by
  simp [upsert_feed, h]

theorem upsert_feed_countP (db : DB) (u t d : String) :
    (upsert_feed db u t d).2.feeds.countP (feedUrlMatch u) =
      max (db.feeds.countP (feedUrlMatch u)) 1 := by
  rcases h : db.feeds.find? (feedUrlMatch u) with _ | f
  · have hzero : db.feeds.countP (feedUrlMatch u) = 0 := by
      rw [List.countP_eq_zero]
      exact List.find?_eq_none.mp h
    simp only [upsert_feed, h]
    rw [List.countP_append, hzero]
    simp [List.countP_cons, feedUrlMatch]
  · have hpos : 0 < db.feeds.countP (feedUrlMatch u) := by
      rw [List.countP_pos_iff]
      exact ⟨f, List.mem_of_find?_eq_some h, List.find?_some h⟩
    have hpres : ∀ x ∈ db.feeds,
        feedUrlMatch u (if feedUrlMatch u x then { x with title := t } else x) =
          feedUrlMatch u x := by
      intro x _
      unfold feedUrlMatch
      by_cases hx : x.feed_url = u <;> simp [hx]
    simp only [upsert_feed, h]
    rw [countP_map_pres hpres]
    exact (Nat.max_eq_left hpos).symm

/-! ### upsert_feed_item single-call lemmas -/

/-- A call that finds an existing row for the pair: the row count for the
pair is unchanged, and the first row for the pair now carries this call's
metadata with its previous download_path. -/
theorem upsert_item_update {db : DB} {fid : Nat} {g : String} {r : ItemRow}
    (hwf : wfDB db) (h : findItemRow db fid g = some r)
    (t d pd : String) (du : Option String) (u le ty : String) (se : Option String) :
    (upsert_feed_item db fid g t d pd du u le ty se).2.items.countP (itemMatch fid g) =
      db.items.countP (itemMatch fid g) ∧
    findItemRow (upsert_feed_item db fid g t d pd du u le ty se).2 fid g =
      some ⟨r.feed_item_id, fid, g, t, d, pd, du, u, le, ty, se, r.download_path⟩ := by
  unfold findItemRow at h ⊢
  have hr_mem : r ∈ db.items := List.mem_of_find?_eq_some h
  have hr_match := List.find?_some h
  have hboth : r.feed_id = fid ∧ r.guid = g := by
    unfold itemMatch at hr_match; simpa using hr_match
  have hpres : ∀ x ∈ db.items,
      itemMatch fid g (if idMatch r.feed_item_id x then
        setMeta g t d pd du u le ty se x else x) = itemMatch fid g x := by
    intro x hx
    by_cases hid : idMatch r.feed_item_id x
    · have hxr : x = r := by
        apply nodup_key_inj hwf.1 hx hr_mem
        unfold idMatch at hid; simpa using hid
      subst hxr
      simp [hid, itemMatch, hboth.2]
    · simp [hid]
  simp only [upsert_feed_item, h]
  refine ⟨countP_map_pres hpres, ?_⟩
  rw [find?_map_pres hpres, h]
  have hid : idMatch r.feed_item_id r = true := by unfold idMatch; simp
  simp only [Option.map_some', hid, if_true]
  cases r
  obtain ⟨h1, h2⟩ := hboth
  simp only at h1 h2
  subst h1; subst h2
  rfl

/-- A call that finds no row for the pair: one fresh row is appended with
this call's metadata and a NULL download_path. -/
theorem upsert_item_insert {db : DB} {fid : Nat} {g : String}
    (h : findItemRow db fid g = none)
    (t d pd : String) (du : Option String) (u le ty : String) (se : Option String) :
    (upsert_feed_item db fid g t d pd du u le ty se).2.items.countP (itemMatch fid g) =
      db.items.countP (itemMatch fid g) + 1 ∧
    findItemRow (upsert_feed_item db fid g t d pd du u le ty se).2 fid g =
      some ⟨db.nextItemId, fid, g, t, d, pd, du, u, le, ty, se, none⟩ := by
  unfold findItemRow at h ⊢
  simp only [upsert_feed_item, h]
  constructor
  · rw [List.countP_append]
    simp [List.countP_cons, itemMatch]
  · rw [find?_append_none h]
    rw [List.find?_cons_of_pos _ (show itemMatch fid g _ = true by unfold itemMatch; simp)]

/-- An update sequence against an existing row: the row count for the pair
never changes, and at the end the row carries the last call's metadata and
its original download_path. -/
theorem upsertItemSeq_update {fid : Nat} {g : String} (ms : List MetaArgs) (mN : MetaArgs) :
    ∀ {db : DB} {r : ItemRow}, wfDB db → findItemRow db fid g = some r →
    (upsertItemSeq db fid g (ms ++ [mN])).items.countP (itemMatch fid g) =
        db.items.countP (itemMatch fid g) ∧
    findItemRow (upsertItemSeq db fid g (ms ++ [mN])) fid g =
      some ⟨r.feed_item_id, fid, g, mN.title, mN.description, mN.pub_date, mN.itunes_duration,
        mN.enclosure_url, mN.enclosure_length, mN.enclosure_type, mN.itunes_season,
        r.download_path⟩ := by
  induction ms with
  | nil =>
    intro db r hwf h
    have := upsert_item_update hwf h mN.title mN.description mN.pub_date mN.itunes_duration
      mN.enclosure_url mN.enclosure_length mN.enclosure_type mN.itunes_season
    simpa [upsertItemSeq] using this
  | cons m rest ih =>
    intro db r hwf h
    have hstep := upsert_item_update hwf h m.title m.description m.pub_date m.itunes_duration
      m.enclosure_url m.enclosure_length m.enclosure_type m.itunes_season
    have hwf' : wfDB (upsert_feed_item db fid g m.title m.description m.pub_date
        m.itunes_duration m.enclosure_url m.enclosure_length m.enclosure_type
        m.itunes_season).2 :=
      upsert_item_wf hwf fid g m.title m.description m.pub_date m.itunes_duration
        m.enclosure_url m.enclosure_length m.enclosure_type m.itunes_season
    have hrec := ih hwf' hstep.2
    exact ⟨hrec.1.trans hstep.1, hrec.2⟩

/-- An item whose pubDate read or parse fails cannot be extracted: the
exception surfaces from the loop body (possibly as an earlier extraction
error of the same item). -/
theorem extractItem_err_of_pubDate {it : XVal} {e : PyErr}
    (hbad : getPubDateE it = .error e) : ∃ e', extractItem it = .error e' := by
  rcases hex : extractItem it with e' | ex
  · exact ⟨e', rfl⟩
  · exfalso
    unfold extractItem at hex
    simp only [bind, Except.bind, pure, Except.pure] at hex
    repeat' split at hex
    all_goals simp_all

/-- If one member of the item list fails on every state, the loop as a
whole surfaces an exception (it runs items in order and stops at the first
failure, so it can never run past the failing item silently). -/
theorem processItems_err_of_mem (env : Env) (fid : Nat) (dir : String) {it : XVal}
    (hfail : ∀ (db : DB) (fs : FS), (processItem env db fs fid dir it).err.isSome = true) :
    ∀ (items : List XVal), it ∈ items →
    ∀ (db : DB) (fs : FS), (processItems env db fs fid dir items).err.isSome = true := by
  intro items
  induction items with
  | nil => intro h; cases h
  | cons x rest ih =>
    intro hmem db fs
    simp only [processItems]
    rcases herr : (processItem env db fs fid dir x).err with _ | e2
    · simp only [herr]
      rcases List.mem_cons.mp hmem with rfl | hmem'
      · have hx := hfail db fs
        rw [herr] at hx
        cases hx
      · exact ih hmem' _ _
    · simp only [herr]
      rfl

/-- When a file already exists at the path an item resolves to, the loop
body performs only the metadata upsert: no download, no filesystem change,
no error (lines 270-288 are skipped entirely). -/
theorem processItem_skip_of_exists (env : Env) (fs : FS) (fid : Nat) (dir : String)
    (it : XVal) (ex : ExtractedItem) (rpath : String) {db : DB}
    (hwf : wfDB db) (hex : extractItem it = .ok ex)
    (hres : resolvedFile db fid dir ex = rpath)
    (hfile : fileExists fs rpath = true) :
    processItem env db fs fid dir it =
      ⟨(upsert_feed_item db fid ex.guid ex.title ex.description (isoformat ex.pubDate)
          ex.duration ex.url ex.enclosure_length ex.enclosure_type ex.season).2,
        fs, [], none⟩ := by
  simp only [processItem, hex]
  rw [processExtracted_eq hwf, hres]
  rw [downloadStep_skip env _ _ ex.url hfile]
  rfl

/-! ### Pass-level skip machinery -/

theorem fileExists_writeFile_mono {fs : FS} {q : String} (h : fileExists fs q = true)
    (p : String) (n : Nat) : fileExists (writeFile fs p n) q = true := by
  unfold writeFile
  by_cases hp : fs.any (fun e => e.1 == p)
  · rw [if_pos hp]
    unfold fileExists at h ⊢
    rw [any_map_pres ?_]
    · exact h
    · intro x _
      by_cases hx : x.1 == p
      · have : x.1 = p := by simpa using hx
        simp [hx, this]
      · simp [hx]
  · rw [if_neg hp]
    unfold fileExists at h ⊢
    rw [List.any_append, h]
    rfl

theorem downloadStep_fs_cases (env : Env) (db : DB) (fs : FS) (tid : Nat)
    (file url : String) :
    (downloadStep env db fs tid file url).2.1 = fs ∨
    ∃ n, (downloadStep env db fs tid file url).2.1 = writeFile fs file n := by
  unfold downloadStep
  split
  · left; rfl
  · split
    · left; rfl
    · split
      · left; rfl
      · split
        · left; rfl
        · split
          · right; exact ⟨_, rfl⟩
          · right; exact ⟨_, rfl⟩

/-- The loop body only ever adds files: a file present before an item is
processed is present afterwards. -/
theorem processItem_fs_mono {db : DB} {fs : FS} {q : String} (env : Env) (fid : Nat)
    (dir : String) (it : XVal)
    (hwf : wfDB db) (h : fileExists fs q = true) :
    fileExists (processItem env db fs fid dir it).fs q = true := by
  rcases hex : extractItem it with e | ex
  · simpa [processItem, hex] using h
  · simp only [processItem, hex]
    rw [processExtracted_eq hwf]
    rcases downloadStep_fs_cases env (upsert_feed_item db fid ex.guid ex.title ex.description
        (isoformat ex.pubDate) ex.duration ex.url ex.enclosure_length ex.enclosure_type
        ex.season).2 fs
        (upsert_feed_item db fid ex.guid ex.title ex.description (isoformat ex.pubDate)
          ex.duration ex.url ex.enclosure_length ex.enclosure_type ex.season).1
        (resolvedFile db fid dir ex) ex.url with hc | ⟨n, hc⟩
    · simp only [hc]; exact h
    · simp only [hc]; exact fileExists_writeFile_mono h _ n

/-- Every downloader invocation the loop body records for an item carries
that item's guid. -/
theorem processItem_downloads_guid {db : DB} (env : Env) (fs : FS) (fid : Nat)
    (dir : String) (it : XVal) (ex : ExtractedItem)
    (hwf : wfDB db) (hex : extractItem it = .ok ex) :
    ∀ pr ∈ (processItem env db fs fid dir it).downloads, pr.1 = ex.guid := by
  intro pr hpr
  simp only [processItem, hex] at hpr
  rw [processExtracted_eq hwf] at hpr
  rcases hb : (downloadStep env (upsert_feed_item db fid ex.guid ex.title ex.description
      (isoformat ex.pubDate) ex.duration ex.url ex.enclosure_length ex.enclosure_type
      ex.season).2 fs
      (upsert_feed_item db fid ex.guid ex.title ex.description (isoformat ex.pubDate)
        ex.duration ex.url ex.enclosure_length ex.enclosure_type ex.season).1
      (resolvedFile db fid dir ex) ex.url).2.2.1 with _ | _
  · rw [hb] at hpr
    simp at hpr
  · rw [hb] at hpr
    simp only [if_true] at hpr
    rw [List.mem_singleton] at hpr
    rw [hpr]

/-- Processing an item with a different guid leaves the recorded path of
the episode exactly as it was. -/
theorem processItem_pathState_other {db : DB} (env : Env) (fs : FS) (fid : Nat)
    (dir : String) (it : XVal) {g : String}
    (hwf : wfDB db)
    (hother : ∀ ex, extractItem it = .ok ex → ¬ex.guid = g) :
    pathState (processItem env db fs fid dir it).db fid g = pathState db fid g := by
  rcases hex : extractItem it with e | ex
  · simp [processItem, hex]
  · have hg := hother ex hex
    simp only [processItem, hex]
    rw [processExtracted_eq hwf]
    have hwf1 : wfDB (upsert_feed_item db fid ex.guid ex.title ex.description
        (isoformat ex.pubDate) ex.duration ex.url ex.enclosure_length ex.enclosure_type
        ex.season).2 :=
      upsert_item_wf hwf fid ex.guid ex.title ex.description (isoformat ex.pubDate)
        ex.duration ex.url ex.enclosure_length ex.enclosure_type ex.season
    have hup_ps := upsert_item_pathState hwf fid ex.guid ex.title ex.description
      (isoformat ex.pubDate) ex.duration ex.url ex.enclosure_length ex.enclosure_type
      ex.season fid g
    rcases downloadStep_db_cases env (upsert_feed_item db fid ex.guid ex.title ex.description
        (isoformat ex.pubDate) ex.duration ex.url ex.enclosure_length ex.enclosure_type
        ex.season).2 fs
        (upsert_feed_item db fid ex.guid ex.title ex.description (isoformat ex.pubDate)
          ex.duration ex.url ex.enclosure_length ex.enclosure_type ex.season).1
        (resolvedFile db fid dir ex) ex.url with hc | hc
    · simp only [hc]; exact hup_ps
    · simp only [hc]
      rw [pathState_setPath, ← hup_ps]
      unfold pathState
      rcases hfi : findItemRow (upsert_feed_item db fid ex.guid ex.title ex.description
          (isoformat ex.pubDate) ex.duration ex.url ex.enclosure_length ex.enclosure_type
          ex.season).2 fid g with _ | r'
      · rfl
      · simp only [Option.some_bind]
        have hne : ¬(r'.feed_item_id == (upsert_feed_item db fid ex.guid ex.title
            ex.description (isoformat ex.pubDate) ex.duration ex.url ex.enclosure_length
            ex.enclosure_type ex.season).1) = true := by
          intro hbeq
          have hfound := upsert_item_find_id hwf fid ex.guid ex.title ex.description
            (isoformat ex.pubDate) ex.duration ex.url ex.enclosure_length ex.enclosure_type
            ex.season
          unfold findItemRow at hfi
          have hr'_mem := List.mem_of_find?_eq_some hfi
          have hrowU_mem := List.mem_of_find?_eq_some hfound
          have hr'_eq := nodup_key_inj hwf1.1 hr'_mem hrowU_mem (by simpa using hbeq)
          have hr'_guid : r'.guid = g := by
            have hm := List.find?_some hfi
            unfold itemMatch at hm
            have hm' : r'.feed_id = fid ∧ r'.guid = g := by simpa using hm
            exact hm'.2
          rw [hr'_eq] at hr'_guid
          simp only at hr'_guid
          exact hg hr'_guid
        rw [if_neg hne]

/-- The core of the skip-if-present property: if rpath is the path the
episode with guid g resolves to at the start of the loop (its stored path
when recorded; otherwise the canonical path, which every occurrence of the
guid in the list agrees on), and a file exists at rpath, then no
downloader invocation of the whole loop carries guid g. -/
theorem processItems_no_download_for (env : Env) (fid : Nat) (dir : String)
    (g rpath : String) (items : List XVal) :
    ∀ (db : DB) (fs : FS),
    wfDB db →
    (∀ p, pathState db fid g = some p → rpath = p) →
    (pathState db fid g = none → ∀ it ∈ items, ∀ ex, extractItem it = .ok ex →
        ex.guid = g → canonicalFile dir ex = rpath) →
    fileExists fs rpath = true →
    ∀ pr ∈ (processItems env db fs fid dir items).downloads, ¬pr.1 = g := by
  induction items with
  | nil =>
    intro db fs _ _ _ _ pr hpr
    cases hpr
  | cons it rest ih =>
    intro db fs hwf hsome hnone hfile pr hpr
    simp only [processItems] at hpr
    rcases hex : extractItem it with e | ex
    · rw [show processItem env db fs fid dir it = ⟨db, fs, [], some e⟩ by
        simp [processItem, hex]] at hpr
      simp at hpr
    · by_cases hg : ex.guid = g
      · have hres : resolvedFile db fid dir ex = rpath := by
          unfold resolvedFile
          rw [hg]
          rcases hst : pathState db fid g with _ | p
          · exact hnone hst it (by simp) ex hex hg
          · exact (hsome p hst).symm
        have hskip := processItem_skip_of_exists env fs fid dir it ex rpath hwf hex
          hres hfile
        rw [hskip] at hpr
        simp only at hpr
        have hwf' : wfDB (upsert_feed_item db fid ex.guid ex.title ex.description
            (isoformat ex.pubDate) ex.duration ex.url ex.enclosure_length
            ex.enclosure_type ex.season).2 :=
          upsert_item_wf hwf fid ex.guid ex.title ex.description (isoformat ex.pubDate)
            ex.duration ex.url ex.enclosure_length ex.enclosure_type ex.season
        have hps' := upsert_item_pathState hwf fid ex.guid ex.title ex.description
          (isoformat ex.pubDate) ex.duration ex.url ex.enclosure_length ex.enclosure_type
          ex.season fid g
        refine ih _ fs hwf' ?_ ?_ hfile pr ?_
        · intro p hp
          exact hsome p (by rw [← hps']; exact hp)
        · intro h0 it' hit' ex' hex' hg'
          exact hnone (by rw [← hps']; exact h0) it' (by simp [hit']) ex' hex' hg'
        · simpa using hpr
      · rcases herr : (processItem env db fs fid dir it).err with _ | e2
        · simp only [herr] at hpr
          rcases List.mem_append.mp hpr with hL | hR
          · have := processItem_downloads_guid env fs fid dir it ex hwf hex pr hL
            rw [this]
            exact hg
          · have hwf' := processItem_wf hwf env fs fid dir it
            have hps' := processItem_pathState_other env fs fid dir it hwf
              (fun ex' hex' => by rw [hex] at hex'; cases hex'; exact hg)
            refine ih _ _ hwf' ?_ ?_ ?_ pr hR
            · intro p hp
              exact hsome p (by rw [← hps']; exact hp)
            · intro h0 it' hit' ex' hex' hg'
              exact hnone (by rw [← hps']; exact h0) it' (by simp [hit']) ex' hex' hg'
            · exact processItem_fs_mono env fid dir it hwf hfile
        · simp only [herr] at hpr
          have := processItem_downloads_guid env fs fid dir it ex hwf hex pr hpr
          rw [this]
          exact hg

/-! ### Claim theorems -/

/-- C1: evaluation of the embedded code at the input of the claim (a feed
whose channel contains exactly one item).  Because xmltodict represents a
single item element as a dict, the loop for item in channel["item"]
iterates over the dict keys; the first key is the string "title" and
subscripting it raises TypeError.  The batch loop catches the exception
and rolls back, so ingestion produces NO feed row, NO episode row and no
file at Example Show/2023-01-02 Ep 1.mp3 -- contrary to the claim, which
expects full ingestion. -/
theorem C1_single_item_feed_crashes :
    (runBatch c1env emptyDB [] [c1url]).db = emptyDB ∧
    (runBatch c1env emptyDB [] [c1url]).failures = [c1url] ∧
    fileExists (runBatch c1env emptyDB [] [c1url]).fs "Example Show/2023-01-02 Ep 1.mp3" = false ∧
    (process_one_feed c1env emptyDB [] c1url).err = some .typeError ∧
    (process_one_feed c1env emptyDB [] c1url).downloads = [] := by
  refine ⟨by decide, by decide, by decide, by decide, by decide⟩

/-- C2 counterexample: an enclosure whose HTTP response has status 404
(non-2xx).  The source never calls raise_for_status on the enclosure
response, so the run reports no failure, writes the 100-byte error body to
disk, and records the episode as downloaded (download_path set) -- the
claim says a non-2xx response fails the download with the episode left
unrecorded. -/
theorem C2_non2xx_recorded_as_downloaded :
    (c2env.enclosures "http://ex.com/c2e1.mp3").map HttpResponse.status = some 404 ∧
    (runBatch c2env emptyDB [] [c2url]).failures = [] ∧
    pathState (runBatch c2env emptyDB [] [c2url]).db 1 "c2g1" = some "Show/2023-01-02 E1.mp3" ∧
    fileExists (runBatch c2env emptyDB [] [c2url]).fs "Show/2023-01-02 E1.mp3" = true := by
  refine ⟨by decide, by decide, by decide, by decide⟩

/-- C3 counterexample: a feed whose second item has an unparseable
pubDate.  The ValueError from strptime propagates out of process_one_feed,
so the WHOLE feed fails: the run reports the feed as failed and the
database is rolled back, leaving no episode row even for the first,
well-formed item (whose enclosure had already been downloaded to disk) --
the claim says only the bad item is skipped and the rest of the feed is
still reconciled and downloaded. -/
theorem C3_bad_date_aborts_whole_feed :
    parsePubDate "2023-01-09" = none ∧
    (runBatch c3env emptyDB [] [c3url]).failures = [c3url] ∧
    (runBatch c3env emptyDB [] [c3url]).db = emptyDB ∧
    (process_one_feed c3env emptyDB [] c3url).err = some .valueError ∧
    fileExists (runBatch c3env emptyDB [] [c3url]).fs "Show/2023-01-02 E1.mp3" = true := by
  refine ⟨by decide, by decide, by decide, by decide, by decide⟩

/-- C5: calling upsert_feed twice with the same URL never creates two
Feed rows: the second call inserts no feed row (lengths equal; the count
of rows with the URL is the same max value after both calls), returns the
same feed identifier as the first call, updates the stored title in place
(the row with the URL now holds the second title), and each of the two
calls appends exactly one RawFeedSnapshot row. -/
theorem C5_upsert_feed_idempotent (db : DB) (url t1 t2 d1 d2 : String) :
    (upsert_feed (upsert_feed db url t1 d1).2 url t2 d2).1 = (upsert_feed db url t1 d1).1 ∧
    (upsert_feed (upsert_feed db url t1 d1).2 url t2 d2).2.feeds.length =
      (upsert_feed db url t1 d1).2.feeds.length ∧
    (upsert_feed (upsert_feed db url t1 d1).2 url t2 d2).2.feeds.countP (feedUrlMatch url) =
      max (db.feeds.countP (feedUrlMatch url)) 1 ∧
    (upsert_feed (upsert_feed db url t1 d1).2 url t2 d2).2.feeds.find? (feedUrlMatch url) =
      some ⟨(upsert_feed db url t1 d1).1, url, t2⟩ ∧
    (upsert_feed db url t1 d1).2.snapshots.length = db.snapshots.length + 1 ∧
    (upsert_feed (upsert_feed db url t1 d1).2 url t2 d2).2.snapshots.length =
      db.snapshots.length + 2 := by
  have hfind1 := upsert_feed_find_url db url t1 d1
  have hsecond := upsert_feed_id_of_found hfind1 t2 d2
  refine ⟨hsecond.1, hsecond.2, ?_, ?_, upsert_feed_snapshots_len db url t1 d1, ?_⟩
  · rw [upsert_feed_countP, upsert_feed_countP]
    omega
  · rw [upsert_feed_find_url, hsecond.1]
  · rw [upsert_feed_snapshots_len, upsert_feed_snapshots_len]

/-- C6: for a fixed (feed_id, guid) pair holding at most one row, any
nonempty sequence of upsert_feed_item calls with varying metadata leaves
exactly one row for the pair; its metadata equals the last call's
arguments and its download_path is what it was before the first call
(none when the pair was absent). -/
theorem C6_upsert_item_idempotent (db : DB) (fid : Nat) (g : String)
    (ms : List MetaArgs) (mN : MetaArgs)
    (hwf : wfDB db) (hcount : db.items.countP (itemMatch fid g) ≤ 1) :
    (upsertItemSeq db fid g (ms ++ [mN])).items.countP (itemMatch fid g) = 1 ∧
    ∃ id, findItemRow (upsertItemSeq db fid g (ms ++ [mN])) fid g =
      some ⟨id, fid, g, mN.title, mN.description, mN.pub_date, mN.itunes_duration,
        mN.enclosure_url, mN.enclosure_length, mN.enclosure_type, mN.itunes_season,
        pathState db fid g⟩ := by
  cases ms with
  | nil =>
    rcases h : findItemRow db fid g with _ | r
    · have hzero : db.items.countP (itemMatch fid g) = 0 := by
        rw [List.countP_eq_zero]
        exact List.find?_eq_none.mp h
      have hins := upsert_item_insert h mN.title mN.description mN.pub_date
        mN.itunes_duration mN.enclosure_url mN.enclosure_length mN.enclosure_type
        mN.itunes_season
      have hps : pathState db fid g = none := by unfold pathState; rw [h]; rfl
      refine ⟨hins.1.trans (by rw [hzero]), ⟨db.nextItemId, ?_⟩⟩
      rw [hps]
      exact hins.2
    · have hone : db.items.countP (itemMatch fid g) = 1 := by
        have hpos : 0 < db.items.countP (itemMatch fid g) := by
          rw [List.countP_pos_iff]
          exact ⟨r, List.mem_of_find?_eq_some h, List.find?_some h⟩
        omega
      have hupd := upsert_item_update hwf h mN.title mN.description mN.pub_date
        mN.itunes_duration mN.enclosure_url mN.enclosure_length mN.enclosure_type
        mN.itunes_season
      have hps : pathState db fid g = r.download_path := by unfold pathState; rw [h]; rfl
      refine ⟨hupd.1.trans hone, ⟨r.feed_item_id, ?_⟩⟩
      rw [hps]
      exact hupd.2
  | cons m rest =>
    rcases h : findItemRow db fid g with _ | r
    · have hzero : db.items.countP (itemMatch fid g) = 0 := by
        rw [List.countP_eq_zero]
        exact List.find?_eq_none.mp h
      have hins := upsert_item_insert h m.title m.description m.pub_date
        m.itunes_duration m.enclosure_url m.enclosure_length m.enclosure_type m.itunes_season
      have hwf' := upsert_item_wf hwf fid g m.title m.description m.pub_date
        m.itunes_duration m.enclosure_url m.enclosure_length m.enclosure_type m.itunes_season
      have hseq := upsertItemSeq_update rest mN hwf' hins.2
      have hps : pathState db fid g = none := by unfold pathState; rw [h]; rfl
      refine ⟨hseq.1.trans (hins.1.trans (by rw [hzero])), ⟨db.nextItemId, ?_⟩⟩
      rw [hps]
      exact hseq.2
    · have hone : db.items.countP (itemMatch fid g) = 1 := by
        have hpos : 0 < db.items.countP (itemMatch fid g) := by
          rw [List.countP_pos_iff]
          exact ⟨r, List.mem_of_find?_eq_some h, List.find?_some h⟩
        omega
      have hupd := upsert_item_update hwf h m.title m.description m.pub_date
        m.itunes_duration m.enclosure_url m.enclosure_length m.enclosure_type m.itunes_season
      have hwf' := upsert_item_wf hwf fid g m.title m.description m.pub_date
        m.itunes_duration m.enclosure_url m.enclosure_length m.enclosure_type m.itunes_season
      have hseq := upsertItemSeq_update rest mN hwf' hupd.2
      have hps : pathState db fid g = r.download_path := by unfold pathState; rw [h]; rfl
      refine ⟨hseq.1.trans (hupd.1.trans hone), ⟨r.feed_item_id, ?_⟩⟩
      rw [hps]
      exact hseq.2

theorem C6_upsert_item_idempotent_witness :
    wfDB emptyDB ∧ emptyDB.items.countP (itemMatch 1 "g") ≤ 1 ∧
    ((upsertItemSeq emptyDB 1 "g" ([c6m1] ++ [c6m2])).items.countP (itemMatch 1 "g") = 1 ∧
     ∃ id, findItemRow (upsertItemSeq emptyDB 1 "g" ([c6m1] ++ [c6m2])) 1 "g" =
       some ⟨id, 1, "g", c6m2.title, c6m2.description, c6m2.pub_date, c6m2.itunes_duration,
         c6m2.enclosure_url, c6m2.enclosure_length, c6m2.enclosure_type, c6m2.itunes_season,
         pathState emptyDB 1 "g"⟩) :=
  ⟨by decide, by decide,
   C6_upsert_item_idempotent emptyDB 1 "g" [c6m1] c6m2 (by decide) (by decide)⟩

/-- C7: across any sequence of ingestion runs, an episode whose
download_path is recorded keeps exactly that value: no operation sets it
back to NULL and no operation overwrites it with a different value (when
the code re-downloads a missing file it rewrites the identical stored
path).  In particular the NULL to non-NULL transition happens at most
once, since afterwards the value is frozen. -/
theorem C7_download_path_monotone (env : Env) (db : DB) (fs : FS)
    (batches : List (List String)) (fid : Nat) (g p : String)
    (hwf : wfDB db) (hp : pathState db fid g = some p) :
    pathState (runMany env db fs batches).1 fid g = some p :=
  runMany_pathState_some_aux env fs batches hwf hp

theorem C7_download_path_monotone_witness :
    wfDB db7 ∧ pathState db7 1 "c7g1" = some "Show/2023-01-02 E1.mp3" ∧
    pathState (runMany env7 db7 []
        [["http://ex.com/c7feed"], ["http://ex.com/c7feed"]]).1 1 "c7g1" =
      some "Show/2023-01-02 E1.mp3" :=
  ⟨by decide, by decide,
   C7_download_path_monotone env7 db7 [] [["http://ex.com/c7feed"], ["http://ex.com/c7feed"]]
     1 "c7g1" "Show/2023-01-02 E1.mp3" (by decide) (by decide)⟩

/-- C4: the batch loop of main isolates feed failures.  If the first feed
processes cleanly, the second fails (for instance because it is
unreachable), and the third processes cleanly starting from the FIRST
run's committed database (the second run's writes having been discarded by
the rollback), then the batch commits exactly the first and third runs and
reports only the second reference as failed.  The database handed to the
third feed is b1.db, untouched by anything the second feed did before
failing. -/
theorem C4_feed_isolation (env : Env) (db0 : DB) (fs0 : FS) (r1 r2 r3 : String)
    (b1 b2 b3 : RunResult)
    (h1 : process_one_feed env db0 fs0 r1 = b1) (h1ok : b1.err = none)
    (h2 : process_one_feed env b1.db b1.fs r2 = b2) (h2bad : b2.err.isSome = true)
    (h3 : process_one_feed env b1.db b2.fs r3 = b3) (h3ok : b3.err = none) :
    runBatch env db0 fs0 [r1, r2, r3] = ⟨b3.db, b3.fs, [r2]⟩ := by
  obtain ⟨e, he⟩ := Option.isSome_iff_exists.mp h2bad
  simp [runBatch, h1, h1ok, h2, he, h3, h3ok]

theorem C4_feed_isolation_witness :
    (process_one_feed env4 emptyDB [] c4u1).err = none ∧
    (process_one_feed env4 c4b1.db c4b1.fs c4u2).err.isSome = true ∧
    (process_one_feed env4 c4b1.db c4b2.fs c4u3).err = none ∧
    c4b3.db.feeds = [⟨1, c4u1, "Show One"⟩, ⟨2, c4u3, "Show Three"⟩] ∧
    (findItemRow c4b3.db 1 "c4g11").isSome = true ∧
    (findItemRow c4b3.db 2 "c4g31").isSome = true ∧
    runBatch env4 emptyDB [] [c4u1, c4u2, c4u3] = ⟨c4b3.db, c4b3.fs, [c4u2]⟩ :=
  ⟨by decide, by decide, by decide, by decide, by decide, by decide,
   C4_feed_isolation env4 emptyDB [] c4u1 c4u2 c4u3 c4b1 c4b2 c4b3
     rfl (by decide) rfl (by decide) rfl (by decide)⟩

/-- C2 amended: the source never inspects the HTTP status of the enclosure
response (raise_for_status is not called on it), so a non-2xx response
does not by itself fail the download.  The download block errors --
leaving the database and the filesystem untouched, hence download_path
NULL -- exactly when the content-length header is absent or does not parse
as an int (or, marginally, parses as zero); with a parseable nonzero
content-length the body is streamed to disk and download_path is recorded
for the episode, whatever the status code (no hypothesis on resp.status
appears below). -/
theorem C2_amended_failure_conditions (env : Env) (db : DB) (fs : FS)
    (tid : Nat) (file url : String) (resp : HttpResponse)
    (henc : env.enclosures url = some resp) (hnew : fileExists fs file = false) :
    (resp.contentLength = none →
      downloadStep env db fs tid file url =
        (db, fs, true, some (.keyError "content-length"))) ∧
    (∀ cl, resp.contentLength = some cl → pyInt? cl = none →
      downloadStep env db fs tid file url = (db, fs, true, some .valueError)) ∧
    (∀ cl n, resp.contentLength = some cl → pyInt? cl = some n → ¬n = 0 →
      (downloadStep env db fs tid file url).2.2.2 = none ∧
      (downloadStep env db fs tid file url).2.1 = writeFile fs file resp.bodyBytes ∧
      ∀ r ∈ (downloadStep env db fs tid file url).1.items, r.feed_item_id = tid →
        r.download_path = some file) := by
  refine ⟨?_, ?_, ?_⟩
  · intro hcl
    simp [downloadStep, hnew, henc, hcl]
  · intro cl hcl hint
    simp [downloadStep, hnew, henc, hcl, hint]
  · intro cl n hcl hint hnz
    have hnz' : ¬((n == 0) = true) := by simpa using hnz
    refine ⟨by simp [downloadStep, hnew, henc, hcl, hint, hnz'],
            by simp [downloadStep, hnew, henc, hcl, hint, hnz'], ?_⟩
    intro r hr hrid
    have hr' : r ∈ db.items.map (setPathRow tid file) := by
      simpa [downloadStep, hnew, henc, hcl, hint, hnz'] using hr
    rcases List.mem_map.mp hr' with ⟨x, hx, rfl⟩
    rw [setPathRow_feed_item_id] at hrid
    rw [setPathRow_download_path]
    simp [hrid]

theorem C2_amended_failure_conditions_witness :
    env2w.enclosures "http://ex.com/c2w.mp3" = some ⟨404, none, 100⟩ ∧
    fileExists [] "Show/x.mp3" = false ∧
    ((HttpResponse.contentLength ⟨404, none, 100⟩ = none →
      downloadStep env2w emptyDB [] 1 "Show/x.mp3" "http://ex.com/c2w.mp3" =
        (emptyDB, [], true, some (.keyError "content-length"))) ∧
     (∀ cl, HttpResponse.contentLength ⟨404, none, 100⟩ = some cl → pyInt? cl = none →
      downloadStep env2w emptyDB [] 1 "Show/x.mp3" "http://ex.com/c2w.mp3" =
        (emptyDB, [], true, some .valueError)) ∧
     (∀ cl n, HttpResponse.contentLength ⟨404, none, 100⟩ = some cl → pyInt? cl = some n →
        ¬n = 0 →
      (downloadStep env2w emptyDB [] 1 "Show/x.mp3" "http://ex.com/c2w.mp3").2.2.2 = none ∧
      (downloadStep env2w emptyDB [] 1 "Show/x.mp3" "http://ex.com/c2w.mp3").2.1 =
        writeFile [] "Show/x.mp3" 100 ∧
      ∀ r ∈ (downloadStep env2w emptyDB [] 1 "Show/x.mp3" "http://ex.com/c2w.mp3").1.items,
        r.feed_item_id = 1 → r.download_path = some "Show/x.mp3")) :=
  ⟨by decide, by decide,
   C2_amended_failure_conditions env2w emptyDB [] 1 "Show/x.mp3" "http://ex.com/c2w.mp3"
     ⟨404, none, 100⟩ (by decide) (by decide)⟩

/-- C9: when the stored download_path of an episode is NULL and a file
already exists at its canonical path, the pass skips the download for that
episode and writes no completion record: the filesystem is unchanged, no
downloader invocation is recorded, no error is raised, and download_path
is still NULL afterwards -- the store update at lines 285-288 sits inside
the branch that actually downloads. -/
theorem C9_skip_leaves_null (env : Env) (db : DB) (fs : FS) (fid : Nat) (dir : String)
    (it : XVal) (ex : ExtractedItem)
    (hwf : wfDB db) (hex : extractItem it = .ok ex)
    (hnull : pathState db fid ex.guid = none)
    (hfile : fileExists fs (canonicalFile dir ex) = true) :
    (processItem env db fs fid dir it).fs = fs ∧
    (processItem env db fs fid dir it).downloads = [] ∧
    (processItem env db fs fid dir it).err = none ∧
    pathState (processItem env db fs fid dir it).db fid ex.guid = none := by
  have hres : resolvedFile db fid dir ex = canonicalFile dir ex := by
    unfold resolvedFile; rw [hnull]; rfl
  have hskip := processItem_skip_of_exists env fs fid dir it ex (canonicalFile dir ex)
    hwf hex hres hfile
  rw [hskip]
  refine ⟨rfl, rfl, rfl, ?_⟩
  rw [upsert_item_pathState hwf fid ex.guid ex.title ex.description (isoformat ex.pubDate)
    ex.duration ex.url ex.enclosure_length ex.enclosure_type ex.season fid ex.guid]
  exact hnull

theorem C9_skip_leaves_null_witness :
    wfDB emptyDB ∧ extractItem c9item = .ok c9ex ∧
    pathState emptyDB 1 "c9g1" = none ∧
    fileExists fs9 (canonicalFile "Show" c9ex) = true ∧
    ((processItem env9 emptyDB fs9 1 "Show" c9item).fs = fs9 ∧
     (processItem env9 emptyDB fs9 1 "Show" c9item).downloads = [] ∧
     (processItem env9 emptyDB fs9 1 "Show" c9item).err = none ∧
     pathState (processItem env9 emptyDB fs9 1 "Show" c9item).db 1 "c9g1" = none) :=
  ⟨by decide, rfl, by decide, by decide,
   C9_skip_leaves_null env9 emptyDB fs9 1 "Show" c9item c9ex (by decide) rfl
     (by decide) (by decide)⟩

/-- C3 amended: an item whose pubDate text does not match the fixed
strptime format does NOT merely fail that item: the ValueError from line
236 propagates out of process_one_feed, so the entire feed is aborted --
the batch loop reports the feed as failed and rolls back ALL of the feed's
database writes, including the rows of its well-formed items.  (Enclosure
files already written for earlier items stay on disk.) -/
theorem C3_amended_bad_date_aborts_feed (env : Env) (db : DB) (fs : FS) (u : String)
    (feedX channel : XVal) (ftitle : String) (items : List XVal) (it : XVal) (e : PyErr)
    (henv : env.feeds u = some feedX)
    (hch : (pyIndex feedX "rss").bind (fun r => pyIndex r "channel") = .ok channel)
    (ht : (pyIndex channel "title").bind asStr = .ok ftitle)
    (hit : (pyIndex channel "item").bind pyIter = .ok items)
    (hmem : it ∈ items)
    (hbad : getPubDateE it = .error e) :
    (process_one_feed env db fs u).err.isSome = true ∧
    (runBatch env db fs [u]).db = db ∧
    (runBatch env db fs [u]).failures = [u] := by
  obtain ⟨e', he'⟩ := extractItem_err_of_pubDate hbad
  have hfail : ∀ (db' : DB) (fs' : FS),
      (processItem env db' fs' (upsert_feed db u ftitle (xvalToJson feedX)).1
        (safe_filename ftitle) it).err.isSome = true := by
    intro db' fs'
    simp [processItem, he']
  have herr : (process_one_feed env db fs u).err.isSome = true := by
    simp only [process_one_feed, henv, hch, ht, hit]
    exact processItems_err_of_mem env _ _ hfail items hmem _ _
  obtain ⟨e2, he2⟩ := Option.isSome_iff_exists.mp herr
  refine ⟨herr, ?_, ?_⟩
  · simp [runBatch, he2]
  · simp [runBatch, he2]

theorem C3_amended_bad_date_aborts_feed_witness :
    c3env.feeds c3url = some c3feed ∧
    (pyIndex c3feed "rss").bind (fun r => pyIndex r "channel") = .ok c3channel ∧
    (pyIndex c3channel "title").bind asStr = .ok "Show" ∧
    (pyIndex c3channel "item").bind pyIter = .ok [c3item1, c3item2] ∧
    c3item2 ∈ [c3item1, c3item2] ∧
    getPubDateE c3item2 = .error .valueError ∧
    ((process_one_feed c3env emptyDB [] c3url).err.isSome = true ∧
     (runBatch c3env emptyDB [] [c3url]).db = emptyDB ∧
     (runBatch c3env emptyDB [] [c3url]).failures = [c3url]) :=
  ⟨rfl, rfl, rfl, rfl, List.mem_cons_of_mem c3item1 (List.mem_cons_self c3item2 []),
   rfl,
   C3_amended_bad_date_aborts_feed c3env emptyDB [] c3url c3feed c3channel "Show"
     [c3item1, c3item2] c3item2 .valueError rfl rfl rfl rfl
     (List.mem_cons_of_mem c3item1 (List.mem_cons_self c3item2 [])) rfl⟩

/-- C8: if, at the start of an ingestion pass over a feed, a file already
exists at the path an episode resolves to -- its stored download_path when
one is recorded (hsome fixes rpath to it), otherwise the canonical path of
its item (hnone fixes rpath to it for every occurrence of the guid) --
then the pass never invokes the enclosure downloader for that episode: no
recorded downloader invocation of the pass carries its guid. -/
theorem C8_file_present_skips_downloader (env : Env) (db : DB) (fs : FS) (u : String)
    (feedX channel : XVal) (ftitle : String) (items : List XVal) (g rpath : String)
    (hwf : wfDB db)
    (henv : env.feeds u = some feedX)
    (hch : (pyIndex feedX "rss").bind (fun r => pyIndex r "channel") = .ok channel)
    (ht : (pyIndex channel "title").bind asStr = .ok ftitle)
    (hit : (pyIndex channel "item").bind pyIter = .ok items)
    (hsome : ∀ p, pathState db (upsert_feed db u ftitle (xvalToJson feedX)).1 g = some p →
      rpath = p)
    (hnone : pathState db (upsert_feed db u ftitle (xvalToJson feedX)).1 g = none →
      ∀ it ∈ items, ∀ ex, extractItem it = .ok ex → ex.guid = g →
        canonicalFile (safe_filename ftitle) ex = rpath)
    (hfile : fileExists fs rpath = true) :
    ∀ pr ∈ (process_one_feed env db fs u).downloads, ¬pr.1 = g := by
  simp only [process_one_feed, henv, hch, ht, hit]
  have hwf' := upsert_feed_wf hwf u ftitle (xvalToJson feedX)
  have hps := upsert_feed_pathState db u ftitle (xvalToJson feedX)
    (upsert_feed db u ftitle (xvalToJson feedX)).1 g
  refine processItems_no_download_for env _ _ g rpath items _ fs hwf' ?_ ?_ hfile
  · intro p hp
    exact hsome p (by rw [← hps]; exact hp)
  · intro h0
    exact hnone (by rw [← hps]; exact h0)

theorem C8_file_present_skips_downloader_witness :
    wfDB db8 ∧
    env8.feeds "http://ex.com/c8feed" = some c8feed ∧
    (pyIndex c8feed "rss").bind (fun r => pyIndex r "channel") = .ok c8channel ∧
    (pyIndex c8channel "title").bind asStr = .ok "Show" ∧
    (pyIndex c8channel "item").bind pyIter = .ok [c8item1, c8item2] ∧
    fileExists fs8 c8rpath = true ∧
    (process_one_feed env8 db8 fs8 "http://ex.com/c8feed").downloads =
      [("c8g2", "Show/2023-01-09 E2.mp3")] ∧
    ∀ pr ∈ (process_one_feed env8 db8 fs8 "http://ex.com/c8feed").downloads,
      ¬pr.1 = "c8g1" :=
  ⟨by decide, rfl, rfl, rfl, rfl, by decide, by decide,
   C8_file_present_skips_downloader env8 db8 fs8 "http://ex.com/c8feed" c8feed c8channel
     "Show" [c8item1, c8item2] "c8g1" c8rpath (by decide) rfl rfl rfl rfl
     (fun p h => Option.some.inj h) (fun h0 => nomatch h0) (by decide)⟩

/-- C10: the feed_item table created by the query CLI (feedcli.py
get_database) lacks the description column that the ingestion program
(download_feeds.py get_database) creates; consequently, on a database
initialised by the query CLI, episode descriptions cannot be stored, and
the list_items statement -- whose SQL text references description -- fails
to prepare, so its description-substring filter can never match a row. -/
theorem C10_feed_item_schema_mismatch :
    "description" ∈ download_feeds_feed_item_columns ∧
    "description" ∉ feedcli_feed_item_columns ∧
    ∀ (rows : List SqlRow) (fid title desc : Option String),
      list_items feedcli_feed_item_columns rows fid title desc = .error "no such column" := by
  refine ⟨by decide, by decide, ?_⟩
  intro rows fid title desc
  have hcond : (list_items_referenced_columns.all
      (fun c => feedcli_feed_item_columns.contains c)) = false := by decide
  unfold list_items
  rw [if_neg ?_]
  rw [hcond]
  exact fun h => nomatch h

end PodcastMirror
